import Mathlib

/-!
Verification of the data-delta-force ingestion core.

This file gives a shallow embedding of the parts of the repository that the
claims talk about, and proves or refutes each claim against it:

* `src/src/data_ingestion/rate_limiter.py` — the `RateLimiter` class
  (`__init__`, `_clean_old_calls`, `_check_rate_limit`, `_record_call`,
  `acquire`, `get_stats`, `reset`).  Wall-clock instants (`time.time()`)
  are modelled as rationals; the mutable per-window deques become lists of
  timestamps threaded through the functions; the one sleep in blocking
  `acquire` becomes explicit time arithmetic.  A Python exception
  (the `IndexError` reachable from `_check_rate_limit`, the
  `ZeroDivisionError` reachable from `get_stats`) is modelled as `none`.

* `src/src/data_ingestion/data_validator.py` — the `DataValidator` class
  (`validate_time_series`, `_detect_outliers_iqr`, `_log_and_store_results`,
  `get_validation_summary`).  A pandas DataFrame is modelled as named
  columns of numeric-or-null cells; a raised Python exception is modelled
  as `Except.error` carrying the validator history at raise time.

* `src/src/data_ingestion/coingecko_client.py` — the response handling of
  `CoinGeckoClient._make_request`, modelled as a function of the transport
  events the session would deliver, instrumented with the number of
  requests issued and the seconds slept above the transport layer.
-/

namespace DDF

/-! ## Rate limiter (rate_limiter.py) -/

/-- Wall-clock instants, in seconds, as returned by `time.time()`. -/
abbrev Time := ℚ

/-- One configured rate-limit window: the pair `(max_calls, window_seconds)`
stored in `RateLimiter.limits`. -/
structure Window where
  maxCalls : Nat
  winSecs  : ℚ
deriving DecidableEq, Repr

/-- Limiter state: each configured window paired with its call deque
(`self.call_history[period]`), oldest timestamp first. -/
abbrev RL := List (Window × List Time)

/-- Source `RateLimiter._clean_old_calls`: pop timestamps from the front of
the deque while they are older than `current_time - window_seconds`. -/
def cleanOldCalls (now : Time) (w : Window) (log : List Time) : List Time :=
  log.dropWhile (fun e => decide (e < now - w.winSecs))

/-- Per-window body of `RateLimiter._check_rate_limit`: clean the deque, and
if the window is at or above its ceiling, read the oldest entry (an
`IndexError`, modelled as `none`, when the deque is empty) and report the
wait until it expires; otherwise contribute no wait. -/
def checkWindow (now : Time) (w : Window) (log : List Time) :
    Option (List Time × ℚ) :=
  let cleaned := cleanOldCalls now w log
  if w.maxCalls ≤ cleaned.length then
    match cleaned.head? with
    | none => none
    | some oldest => some (cleaned, oldest + w.winSecs - now)
  else
    some (cleaned, 0)

/-- Source `RateLimiter._check_rate_limit`: fold `checkWindow` over every
configured window, keeping the cleaned deques and the maximum wait time
(which starts at `0.0` in the source). -/
def checkRateLimit (now : Time) : RL → Option (RL × ℚ)
  | [] => some ([], 0)
  | p :: rest =>
    match checkWindow now p.1 p.2 with
    | none => none
    | some cw =>
      match checkRateLimit now rest with
      | none => none
      | some r => some ((p.1, cw.1) :: r.1, max cw.2 r.2)

/-- Source `RateLimiter._record_call`: append the current timestamp to every
window deque. -/
def recordCall (now : Time) (ws : RL) : RL :=
  ws.map (fun p => (p.1, p.2 ++ [now]))

/-- Outcome of one `acquire` call: the returned boolean, the instant at which
the call returns (equal to the call instant unless the blocking branch
slept), and the limiter state it leaves behind. -/
structure AcquireResult where
  granted : Bool
  endTime : Time
  state   : RL
deriving DecidableEq, Repr

/-- Source `RateLimiter.acquire`: check the limits; on a positive wait either
fail fast (non-blocking) or sleep `wait + 0.1` and record the call after
waking; otherwise record immediately.  The source checks
`if max_wait_time > 0` against a maximum that starts at `0.0`. -/
def acquire (blocking : Bool) (now : Time) (ws : RL) : Option AcquireResult :=
  match checkRateLimit now ws with
  | none => none
  | some c =>
    if c.2 ≤ 0 then
      some ⟨true, now, recordCall now c.1⟩
    else if blocking then
      some ⟨true, now + c.2 + 1/10, recordCall (now + c.2 + 1/10) c.1⟩
    else
      some ⟨false, now, c.1⟩

/-- One optional ceiling of `RateLimiter.__init__`: a `None` ceiling is
dropped from `self.limits`, any integer ceiling (zero included — the
constructor performs no validation) is kept. -/
def optWindow (c : Option Nat) (d : ℚ) : List Window :=
  match c with
  | none => []
  | some m => [⟨m, d⟩]

/-- The window table built by `RateLimiter.__init__`: second, minute, hour
and day ceilings with their durations, `None` entries removed. -/
def mkLimits (cps cpm cph cpd : Option Nat) : List Window :=
  optWindow cps 1 ++ optWindow cpm 60 ++ optWindow cph 3600 ++
    optWindow cpd 86400

/-- Source `RateLimiter.__init__`: build the window table and give every
window an empty call deque.  The constructor raises nothing. -/
def initState (cps cpm cph cpd : Option Nat) : RL :=
  (mkLimits cps cpm cph cpd).map (fun w => (w, []))

/-- Source `RateLimiter.get_stats`: per window, clean the deque and report
current calls, the ceiling, and the utilisation percentage.  The division
`current_calls / max_calls` raises `ZeroDivisionError` (modelled `none`)
when the ceiling is zero. -/
def getStats (now : Time) : RL → Option (List (Nat × Nat × ℚ) × RL)
  | [] => some ([], [])
  | p :: rest =>
    let c := cleanOldCalls now p.1 p.2
    if p.1.maxCalls = 0 then none
    else
      match getStats now rest with
      | none => none
      | some r =>
        some ((c.length, p.1.maxCalls, ((c.length : ℚ) / (p.1.maxCalls : ℚ)) * 100) :: r.1,
              (p.1, c) :: r.2)

/-- Source `RateLimiter.reset`: clear every call deque. -/
def resetState (ws : RL) : RL :=
  ws.map (fun p => (p.1, ([] : List Time)))

/-- A single caller running a sequence of `acquire` calls: each command is a
nonnegative think-time gap since the previous call returned, and the
blocking flag.  Produces the final instant and limiter state. -/
def runAcquires : List (ℚ × Bool) → Time → RL → Option (Time × RL)
  | [], t, ws => some (t, ws)
  | c :: cs, t, ws =>
    match acquire c.2 (t + c.1) ws with
    | none => none
    | some r => runAcquires cs r.endTime r.state

/-- Number of logged timestamps strictly inside the trailing window at
instant `s`, i.e. with age strictly less than the window duration. -/
def strictCount (s : Time) (w : Window) (log : List Time) : Nat :=
  log.countP (fun e => decide (s - w.winSecs < e))

/-- Number of logged timestamps whose age at instant `s` is at most the
window duration (boundary instants included). -/
def inclCount (s : Time) (w : Window) (log : List Time) : Nat :=
  log.countP (fun e => decide (s - w.winSecs ≤ e))

/-! ### Invariant machinery for the rate limiter -/

/-- Per-window invariant at instant `t`: the deque is sorted ascending, all
entries are at most `t`, it holds at most `maxCalls + 1` entries, and when
it does overflow to `maxCalls + 1` entries its oldest one already sits at or
before the window boundary of instant `t`. -/
structure WInv (t : Time) (w : Window) (log : List Time) : Prop where
  sorted : log.Sorted (· ≤ ·)
  le_t : ∀ e ∈ log, e ≤ t
  len_le : log.length ≤ w.maxCalls + 1
  over : ∀ h, log.length = w.maxCalls + 1 → log.head? = some h →
    h ≤ t - w.winSecs

/-- Run invariant: every configured window is well configured and satisfies
its per-window invariant. -/
def RunInv (t : Time) (ws : RL) : Prop :=
  ∀ p ∈ ws, 1 ≤ p.1.maxCalls ∧ 0 < p.1.winSecs ∧ WInv t p.1 p.2

/-! ## Data validator (data_validator.py) -/

/-- Severity levels (`ValidationSeverity`). -/
inductive Severity
  | info
  | warning
  | error
  | critical
deriving DecidableEq, Repr

/-- Cell of a numeric DataFrame column: a float value or a null (NaN). -/
abbrev Cell := Option ℚ

/-- Structured counterpart of the message format strings the validator
produces; each constructor stands for one format string, carrying the
values interpolated into it (a field name interpolated into a message is
already held by the result's `field_name`, so the constructors do not
repeat it). -/
inductive VMessage
  | dataFrameEmpty
  | timestampColNotFound (c : String)
  | valueColNotFound (c : String)
  | missingValues (count : Nat) (pct : ℚ)
  | duplicateTimestamps (count : Nat)
  | timeSeriesSorted
  | timeSeriesNotSorted
  | detectedOutliers (count : Nat) (pct : ℚ)
  | validationFailed (m : VMessage)
  | criticalValidationFailure (m : VMessage)
  | missingRequiredFields (fs : List String)
  | allRequiredFieldsPresent
  | fieldIsNone
  | belowMinimum (x lo : ℚ)
  | aboveMaximum (x hi : ℚ)
  | withinValidRange
  | notNumericValue
  | timestampInFuture
  | timestampTooOld
  | timestampValid
  | invalidTimestampFormat
  | invalidDateFormat
  | validDateFormat
  | nullCheck (ok : Bool)
deriving DecidableEq, Repr

/-- Source `ValidationResult`.  The `metadata` dict is omitted: the counts
and percentages it duplicates are carried by the structured message.
`invalid_values` keeps the numeric payloads; the string-valued payloads of
the source (the missing field names of `_validate_required_fields`, the
raw unparseable values) are carried by the structured message instead. -/
structure ValidationResult where
  is_valid : Bool
  field_name : String
  severity : Severity
  message : VMessage
  invalid_values : Option (List ℚ) := none
deriving DecidableEq, Repr

/-- Python exceptions escaping the validator. -/
inductive PyError
  | keyError (c : String)
  | valueError (m : VMessage)
deriving DecidableEq, Repr

/-- DataFrame model: a row count and named numeric columns (every column is
expected to have `nrows` cells; theorems that need this carry it as a
hypothesis). -/
structure DataFrame where
  nrows : Nat
  cols : List (String × List Cell)
deriving DecidableEq, Repr

/-- Column lookup, `df[c]`. -/
def DataFrame.col? (df : DataFrame) (c : String) : Option (List Cell) :=
  (df.cols.find? (fun p => p.1 == c)).map (fun p => p.2)

/-- Source `df.empty`: true when any axis has length 0. -/
def DataFrame.isEmpty (df : DataFrame) : Bool :=
  df.nrows == 0 || df.cols.isEmpty

/-- Source `df[value_col].isna().sum()`. -/
def nullCount (l : List Cell) : Nat :=
  (l.filter (fun c => c.isNone)).length

/-- Helper for `dupCount`, carrying the set of cells already seen. -/
def dupCountAux : List Cell → List Cell → Nat
  | [], _ => 0
  | x :: xs, seen => (if x ∈ seen then 1 else 0) + dupCountAux xs (x :: seen)

/-- Source `df[timestamp_col].duplicated().sum()`: number of entries equal
to an earlier entry (pandas treats nulls as equal to each other here). -/
def dupCount (l : List Cell) : Nat := dupCountAux l []

/-- Pairwise nondecreasing check behind `is_monotonic_increasing`. -/
def allLe : List ℚ → Bool
  | [] => true
  | [_] => true
  | a :: b :: rest => decide (a ≤ b) && allLe (b :: rest)

/-- Source `series.is_monotonic_increasing` for a float series: false in the
presence of nulls, otherwise pairwise nondecreasing. -/
def monoInc (l : List Cell) : Bool :=
  if l.any (fun c => c.isNone) then false else allLe (l.filterMap id)

/-- Insertion of a value into a sorted list, for the ascending sort that
backs the quantile computation. -/
def insertSorted (x : ℚ) : List ℚ → List ℚ
  | [] => [x]
  | y :: ys => if x ≤ y then x :: y :: ys else y :: insertSorted x ys

/-- Ascending insertion sort. -/
def sortAsc (l : List ℚ) : List ℚ := l.foldr insertSorted []

/-- Source `series.quantile(q)` with the default linear interpolation, over
the ascending sorted valid values `s`: with `h = q * (n - 1)`, interpolate
between the entries at position `floor h` and the next one. -/
def quantileLin (s : List ℚ) (q : ℚ) : ℚ :=
  let h : ℚ := q * ((s.length : ℚ) - 1)
  let i : Nat := (⌊h⌋).toNat
  let lo := s.getD i 0
  let hi := s.getD (i + 1) lo
  lo + (h - (i : ℚ)) * (hi - lo)

/-- Source `DataValidator._detect_outliers_iqr`: the quantiles ignore nulls,
the comparison mask drops nulls, and the order of the series is kept. -/
def detectOutliersIqr (mult : ℚ) (l : List Cell) : List ℚ :=
  let vals := l.filterMap id
  if vals.isEmpty then []
  else
    let srt := sortAsc vals
    let q1 := quantileLin srt (1/4)
    let q3 := quantileLin srt (3/4)
    let iqr := q3 - q1
    let lb := q1 - mult * iqr
    let ub := q3 + mult * iqr
    vals.filter (fun v => decide (v < lb) || decide (ub < v))

/-- The finding built by the missing-value rule of `validate_time_series`
(source lines 278-284): valid iff the null percentage is below 10, WARNING
below 10 and ERROR at or above it. -/
def missingFinding (vcol : String) (nrows : Nat) (vdata : List Cell) :
    ValidationResult :=
  let pct : ℚ := ((nullCount vdata : ℚ) / (nrows : ℚ)) * 100
  { is_valid := decide (pct < 10), field_name := vcol,
    severity := if pct < 10 then .warning else .error,
    message := .missingValues (nullCount vdata) pct }

/-- Missing-value rule of `validate_time_series` (source lines 274-284): a
finding is produced only when the null count is positive. -/
def missingBlock (vcol : String) (nrows : Nat) (vdata : List Cell) :
    List ValidationResult :=
  if 0 < nullCount vdata then [missingFinding vcol nrows vdata] else []

/-- The finding built by the duplicate-timestamp rule (source lines
288-295). -/
def dupFinding (tcol : String) (tdata : List Cell) : ValidationResult :=
  { is_valid := false, field_name := tcol, severity := .warning,
    message := .duplicateTimestamps (dupCount tdata) }

/-- Duplicate-timestamp rule (source lines 286-295): a finding only when
duplicates exist. -/
def dupBlock (tcol : String) (tdata : List Cell) : List ValidationResult :=
  if 0 < dupCount tdata then [dupFinding tcol tdata] else []

/-- The INFO finding of the sort-order rule (source lines 299-305). -/
def sortFinding (tcol : String) (tdata : List Cell) : ValidationResult :=
  { is_valid := monoInc tdata, field_name := tcol, severity := .info,
    message := if monoInc tdata then .timeSeriesSorted
      else .timeSeriesNotSorted }

/-- Sort-order rule (source lines 297-305): always reported. -/
def sortBlock (tcol : String) (tdata : List Cell) : List ValidationResult :=
  [sortFinding tcol tdata]

/-- The finding built by the outlier rule (source lines 311-319): severity
is always WARNING, validity flips at a 5 percent outlier share, the first
ten outliers are attached. -/
def outlierFinding (vcol : String) (nrows : Nat) (vdata : List Cell) :
    ValidationResult :=
  let os := detectOutliersIqr (3/2) vdata
  let pct : ℚ := ((os.length : ℚ) / (nrows : ℚ)) * 100
  { is_valid := decide (pct < 5), field_name := vcol, severity := .warning,
    message := .detectedOutliers os.length pct,
    invalid_values := some (os.take 10) }

/-- Outlier rule (source lines 307-319); every cell of the model is numeric,
so the `is_numeric_dtype` guard holds.  A finding only when outliers were
detected. -/
def outlierBlock (vcol : String) (nrows : Nat) (vdata : List Cell) :
    List ValidationResult :=
  if 0 < (detectOutliersIqr (3/2) vdata).length then
    [outlierFinding vcol nrows vdata]
  else []

/-- The rule battery of `validate_time_series` past its early returns, in
source order. -/
def timeSeriesRules (nrows : Nat) (tcol vcol : String)
    (vdata tdata : List Cell) : List ValidationResult :=
  missingBlock vcol nrows vdata ++ dupBlock tcol tdata ++
    sortBlock tcol tdata ++ outlierBlock vcol nrows vdata

/-- A result at which `_log_and_store_results` raises in the given mode. -/
def raisesOn (strict : Bool) (r : ValidationResult) : Bool :=
  strict && ((r.severity == .error && !r.is_valid) || r.severity == .critical)

/-- The `ValueError` message used at the raise. -/
def raiseMsg (r : ValidationResult) : VMessage :=
  if r.severity == .critical then .criticalValidationFailure r.message
  else .validationFailed r.message

/-- Source `DataValidator._log_and_store_results`: the history is extended
first; then the loop raises at the first stored result that is an invalid
ERROR (strict mode) or any CRITICAL (strict mode).  On a raise the error
carries the already-extended history the validator object keeps. -/
def logAndStoreResults (strict : Bool) (hist rs : List ValidationResult) :
    Except (PyError × List ValidationResult) (List ValidationResult) :=
  let h2 := hist ++ rs
  match rs.find? (raisesOn strict) with
  | none => .ok h2
  | some r => .error (.valueError (raiseMsg r), h2)

/-- Source `DataValidator.validate_time_series`, returning the produced
findings and the validator history after the call; `Except.error` models a
raised exception together with the history the validator keeps at that
point.  Mirrors the source control flow: the empty-frame and the
missing-value-column checks return early without logging or storing; a
missing timestamp column is recorded as a finding at line 258 but the later
unguarded `df[timestamp_col].duplicated()` access at line 287 raises a
`KeyError`. -/
def validateTimeSeries (strict : Bool) (hist : List ValidationResult)
    (df : DataFrame) (tcol vcol : String) :
    Except (PyError × List ValidationResult)
      (List ValidationResult × List ValidationResult) :=
  if df.isEmpty then
    .ok ([{ is_valid := false, field_name := "dataframe", severity := .error,
            message := .dataFrameEmpty }], hist)
  else
    let r1 : List ValidationResult :=
      if (df.col? tcol).isSome then []
      else [{ is_valid := false, field_name := tcol, severity := .error,
              message := .timestampColNotFound tcol }]
    match df.col? vcol with
    | none =>
      .ok (r1 ++ [{ is_valid := false, field_name := vcol, severity := .error,
                    message := .valueColNotFound vcol }], hist)
    | some vdata =>
      match df.col? tcol with
      | none => .error (.keyError tcol, hist)
      | some tdata =>
        let rs := r1 ++ timeSeriesRules df.nrows tcol vcol vdata tdata
        match logAndStoreResults strict hist rs with
        | .ok h2 => .ok (rs, h2)
        | .error e => .error e

/-- Summary shapes returned by `get_validation_summary`: a bare zero count
for an empty history, otherwise the full statistics dict. -/
inductive VSummary
  | emptyHistory
  | stats (total passed failed : Nat) (successRate : ℚ)
      (infoCount warningCount errorCount criticalCount : Nat)
deriving DecidableEq, Repr

/-- Number of stored results of one severity. -/
def countSeverity (s : Severity) (hist : List ValidationResult) : Nat :=
  (hist.filter (fun r => r.severity == s)).length

/-- Source `DataValidator.get_validation_summary`. -/
def getValidationSummary (hist : List ValidationResult) : VSummary :=
  if hist.isEmpty then .emptyHistory
  else
    let passed := (hist.filter (fun r => r.is_valid)).length
    let failed := (hist.filter (fun r => !r.is_valid)).length
    .stats hist.length passed failed
      (((passed : ℚ) / (hist.length : ℚ)) * 100)
      (countSeverity .info hist) (countSeverity .warning hist)
      (countSeverity .error hist) (countSeverity .critical hist)

/-- Recognizer for the missing-values finding. -/
def isMissingFinding (r : ValidationResult) : Bool :=
  match r.message with
  | .missingValues _ _ => true
  | _ => false

/-- Recognizer for the outlier finding. -/
def isOutlierFinding (r : ValidationResult) : Bool :=
  match r.message with
  | .detectedOutliers _ _ => true
  | _ => false

/-! ### Record validators (`validate_crypto_data`, `validate_macro_data`) -/

/-- A Python value in an API record, abstracted by the observations the
validator makes of it: `pyNone` is `None`; `num q` is an `int` or `float`
(for which `float(v)` returns `q` and `pd.to_datetime(v, unit='ms')`
yields the epoch-millisecond instant `q`); `other f d e` covers strings
and the remaining objects, carrying the outcome `f` of `float(v)` (`none`
when that raises `ValueError`/`TypeError`), the outcome `d` of
`pd.to_datetime(v)` as epoch milliseconds (`none` when that raises), and
whether the value equals the empty string. -/
inductive PyValue
  | pyNone
  | num (q : ℚ)
  | other (asFloat : Option ℚ) (asDatetime : Option ℚ)
      (isEmptyString : Bool)
deriving DecidableEq, Repr

/-- A Python dict of API record fields. -/
abbrev PyDict := List (String × PyValue)

/-- Source `data.get(k)`; presence (`k in data`) is `isSome`. -/
def dictGet? (data : PyDict) (k : String) : Option PyValue :=
  (data.find? (fun p => p.1 == k)).map (fun p => p.2)

/-- Outcome of `float(v)`: `none` when it raises. -/
def pyFloat? : PyValue → Option ℚ
  | .pyNone => none
  | .num q => some q
  | .other f _ _ => f

/-- Outcome of `pd.to_datetime(v)` (with `unit='ms'` for numbers) as an
epoch-millisecond instant: `none` when the parse raises. -/
def pyDatetime? : PyValue → Option ℚ
  | .pyNone => none
  | .num q => some q
  | .other _ d _ => d

/-- Source `value is not None and value != ""`. -/
def pyNotNullOrEmpty : PyValue → Bool
  | .pyNone => false
  | .num _ => true
  | .other _ _ e => !e

/-- `pd.Timestamp('2009-01-01')` in epoch milliseconds — the Bitcoin
genesis cutoff of `_validate_timestamp`. -/
def genesisMs : ℚ := 1230768000000

/-- Source `_validate_numeric_range` past its minimum check: the maximum
check (`numeric_value > max_value`), then the valid INFO result. -/
def rangeAfterMin (f : String) (sev : Severity) (x : ℚ) (hi : Option ℚ) :
    ValidationResult :=
  match hi with
  | some m =>
    if m < x then
      { is_valid := false, field_name := f, severity := sev,
        message := .aboveMaximum x m, invalid_values := some [x] }
    else
      { is_valid := true, field_name := f, severity := .info,
        message := .withinValidRange }
  | none =>
    { is_valid := true, field_name := f, severity := .info,
      message := .withinValidRange }

/-- Source `DataValidator._validate_numeric_range` (the severity parameter
defaults to ERROR at call sites that omit it): a `None` value is invalid
at the passed severity; a value `float()` rejects is an invalid ERROR; a
value below the minimum or above the maximum is invalid at the passed
severity; otherwise a valid INFO result. -/
def validateNumericRange (v : PyValue) (f : String) (lo hi : Option ℚ)
    (sev : Severity) : ValidationResult :=
  match v with
  | .pyNone =>
    { is_valid := false, field_name := f, severity := sev,
      message := .fieldIsNone }
  | w =>
    match pyFloat? w with
    | none =>
      { is_valid := false, field_name := f, severity := .error,
        message := .notNumericValue }
    | some x =>
      match lo with
      | some m =>
        if x < m then
          { is_valid := false, field_name := f, severity := sev,
            message := .belowMinimum x m, invalid_values := some [x] }
        else rangeAfterMin f sev x hi
      | none => rangeAfterMin f sev x hi

/-- Source `DataValidator._validate_timestamp`: `None` is an invalid
ERROR; an unparseable value is an invalid ERROR; a parsed instant after
`now` (`pd.Timestamp.now()`, passed explicitly in epoch milliseconds) or
before the 2009-01-01 genesis cutoff is an invalid WARNING; otherwise a
valid INFO result. -/
def validateTimestamp (now : ℚ) (v : PyValue) (f : String) :
    ValidationResult :=
  match v with
  | .pyNone =>
    { is_valid := false, field_name := f, severity := .error,
      message := .fieldIsNone }
  | w =>
    match pyDatetime? w with
    | none =>
      { is_valid := false, field_name := f, severity := .error,
        message := .invalidTimestampFormat }
    | some ts =>
      if now < ts then
        { is_valid := false, field_name := f, severity := .warning,
          message := .timestampInFuture }
      else if ts < genesisMs then
        { is_valid := false, field_name := f, severity := .warning,
          message := .timestampTooOld }
      else
        { is_valid := true, field_name := f, severity := .info,
          message := .timestampValid }

/-- Source `DataValidator._validate_date_format`: `None` is an invalid
ERROR; a value `pd.to_datetime` rejects is an invalid ERROR; otherwise a
valid INFO result. -/
def validateDateFormat (v : PyValue) (f : String) : ValidationResult :=
  match v with
  | .pyNone =>
    { is_valid := false, field_name := f, severity := .error,
      message := .fieldIsNone }
  | w =>
    match pyDatetime? w with
    | none =>
      { is_valid := false, field_name := f, severity := .error,
        message := .invalidDateFormat }
    | some _ =>
      { is_valid := true, field_name := f, severity := .info,
        message := .validDateFormat }

/-- Source `DataValidator._validate_not_null`: valid iff the value is
neither `None` nor the empty string, ERROR when invalid and INFO when
valid. -/
def validateNotNull (v : PyValue) (f : String) : ValidationResult :=
  let ok := pyNotNullOrEmpty v
  { is_valid := ok, field_name := f,
    severity := if ok then .info else .error, message := .nullCheck ok }

/-- Source `DataValidator._validate_required_fields`: one ERROR result
listing the missing fields, or one INFO result when none are missing. -/
def requiredFieldsBlock (data : PyDict) (required : List String) :
    List ValidationResult :=
  let missing := required.filter (fun f => (dictGet? data f).isNone)
  if missing.isEmpty then
    [{ is_valid := true, field_name := "required_fields",
       severity := .info, message := .allRequiredFieldsPresent }]
  else
    [{ is_valid := false, field_name := "required_fields",
       severity := .error, message := .missingRequiredFields missing }]

/-- One `if field in data: results.append(_validate_numeric_range(...))`
step of `validate_crypto_data`. -/
def optionalRange (data : PyDict) (f : String) (lo hi : Option ℚ)
    (sev : Severity) : List ValidationResult :=
  match dictGet? data f with
  | some v => [validateNumericRange v f lo hi sev]
  | none => []

/-- The `last_updated` timestamp rule of `validate_crypto_data` (source
lines 156-160). -/
def lastUpdatedBlock (now : ℚ) (data : PyDict) : List ValidationResult :=
  match dictGet? data "last_updated" with
  | some v => [validateTimestamp now v "last_updated"]
  | none => []

/-- The default `required_fields` of `validate_crypto_data`. -/
def defaultCryptoRequired : List String :=
  ["id", "symbol", "name", "current_price", "market_cap", "total_volume"]

/-- The rule battery of `validate_crypto_data` (source lines 113-160) in
source order: required fields; `current_price` in [0, 1e6]; `market_cap`
in [0, 1e13]; `total_volume` in [0, 1e12]; the two percentage-change
fields in [-100, 1000]; the `last_updated` timestamp — each range and
timestamp rule only when the field is present. -/
def cryptoRules (now : ℚ) (data : PyDict) (required : List String) :
    List ValidationResult :=
  requiredFieldsBlock data required
    ++ optionalRange data "current_price" (some 0) (some 1000000) .error
    ++ optionalRange data "market_cap" (some 0) (some 10000000000000)
        .error
    ++ optionalRange data "total_volume" (some 0) (some 1000000000000)
        .error
    ++ optionalRange data "price_change_percentage_24h" (some (-100))
        (some 1000) .error
    ++ optionalRange data "price_change_percentage_7d" (some (-100))
        (some 1000) .error
    ++ lastUpdatedBlock now data

/-- Source `DataValidator.validate_crypto_data`: build the rule battery
(defaulting `required_fields` when `None` is passed), hand it to
`_log_and_store_results`, and return the battery together with the
extended history — or the raise, with the history the validator keeps at
that point. -/
def validateCryptoData (strict : Bool) (hist : List ValidationResult)
    (now : ℚ) (data : PyDict) (req : Option (List String)) :
    Except (PyError × List ValidationResult)
      (List ValidationResult × List ValidationResult) :=
  let rs := cryptoRules now data (req.getD defaultCryptoRequired)
  (logAndStoreResults strict hist rs).map (fun h2 => (rs, h2))

/-- The indicator-specific value rule of `validate_macro_data` (source
lines 196-222): inflation in [-20, 50] at WARNING severity, interest_rate
in [-5, 25], unemployment in [0, 30], any other indicator a not-null
check. -/
def indicatorValueBlock (ind : String) (v : PyValue) :
    List ValidationResult :=
  if ind == "inflation" then
    [validateNumericRange v "value" (some (-20)) (some 50) .warning]
  else if ind == "interest_rate" then
    [validateNumericRange v "value" (some (-5)) (some 25) .error]
  else if ind == "unemployment" then
    [validateNumericRange v "value" (some 0) (some 30) .error]
  else [validateNotNull v "value"]

/-- The `date` format rule of `validate_macro_data` (source lines
189-193). -/
def dateBlock (data : PyDict) : List ValidationResult :=
  match dictGet? data "date" with
  | some v => [validateDateFormat v "date"]
  | none => []

/-- The `value` rule of `validate_macro_data` (source lines 196-222). -/
def valueBlock (data : PyDict) (ind : String) : List ValidationResult :=
  match dictGet? data "value" with
  | some v => indicatorValueBlock ind v
  | none => []

/-- The rule battery of `validate_macro_data` (source lines 180-222) in
source order: required fields `date` and `value`, the date format, then
the indicator-specific value rule — the last two only when the field is
present. -/
def indicatorRules (data : PyDict) (ind : String) :
    List ValidationResult :=
  requiredFieldsBlock data ["date", "value"] ++ dateBlock data
    ++ valueBlock data ind

/-- Source `DataValidator.validate_macro_data`, in the same shape as
`validateCryptoData`. -/
def validateMacroData (strict : Bool) (hist : List ValidationResult)
    (data : PyDict) (ind : String) :
    Except (PyError × List ValidationResult)
      (List ValidationResult × List ValidationResult) :=
  let rs := indicatorRules data ind
  (logAndStoreResults strict hist rs).map (fun h2 => (rs, h2))

/-! ## CoinGecko client (coingecko_client.py) -/

/-- An HTTP response as seen by `_make_request`: status code, optional
integer Retry-After header, the error detail a 400 body may carry (parsed
and logged by the handler, but never surfaced — see `statusOutcome`), and
the JSON payload for the success path. -/
structure HttpResponse where
  status : Nat
  retryAfter : Option Nat := none
  errorMessage : Option String := none
  body : String := ""
deriving DecidableEq, Repr

/-- What the transport layer delivers for one issued request. -/
inductive TransportEvent
  | response (r : HttpResponse)
  | timeout
  | requestFailure (msg : String)
deriving DecidableEq, Repr

/-- Exceptions raised by `_make_request`.  `badRequest` carries no parsed
detail: the 400 handler's detailed raise sits inside the same `try` as the
body parse and is swallowed by the bare `except:`, so only the generic
bad-request error ever escapes (see `statusOutcome`). -/
inductive CGError
  | rateLimit (retryAfter : Nat)
  | authFailed
  | badRequest
  | httpError (status : Nat)
  | timeoutExpired
  | requestFailed (msg : String)
deriving DecidableEq, Repr

/-- Decidable equality on `Except`, for evaluating concrete outcomes. -/
instance instDecEqExcept {ε α : Type} [DecidableEq ε] [DecidableEq α] :
    DecidableEq (Except ε α) := fun x y =>
  match x, y with
  | .ok a, .ok b =>
    if h : a = b then isTrue (by rw [h])
    else isFalse (by intro hh; cases hh; exact h rfl)
  | .error a, .error b =>
    if h : a = b then isTrue (by rw [h])
    else isFalse (by intro hh; cases hh; exact h rfl)
  | .ok _, .error _ => isFalse (by intro hh; cases hh)
  | .error _, .ok _ => isFalse (by intro hh; cases hh)

/-- Observable behaviour of one `_make_request` call: its outcome, how many
requests it issued above the transport layer, and the seconds it slept in
explicit 429 handling (as opposed to in the rate limiter or the transport
retries). -/
structure ReqResult where
  outcome : Except CGError String
  requestsIssued : Nat
  sleptSeconds : List Nat
deriving DecidableEq, Repr

/-- Status dispatch of `_make_request` (source lines 207-232): a 429 reads
the Retry-After header (default 60) and raises `RateLimitError`; a 401
raises; the 400 handler parses and logs the body's error detail, but its
detailed raise is inside the same `try` as the parse and the bare
`except:` catches it and re-raises the generic bad-request error, so that
is what always escapes; `raise_for_status` raises for the remaining
4xx/5xx; otherwise the JSON body is returned. -/
def statusOutcome (r : HttpResponse) : Except CGError String :=
  if r.status == 429 then .error (.rateLimit (r.retryAfter.getD 60))
  else if r.status == 401 then .error .authFailed
  else if r.status == 400 then .error .badRequest
  else if 400 ≤ r.status ∧ r.status < 600 then .error (.httpError r.status)
  else .ok r.body

/-- Source `CoinGeckoClient._make_request` over the stream of transport
events that successive issues would receive: exactly one request is issued,
no explicit 429 sleep is ever taken, and the first event alone decides the
outcome (timeouts and request failures are wrapped into
`CoinGeckoAPIError`). -/
def makeRequest : List TransportEvent → Option ReqResult
  | [] => none
  | .response r :: _ => some ⟨statusOutcome r, 1, []⟩
  | .timeout :: _ => some ⟨.error .timeoutExpired, 1, []⟩
  | .requestFailure m :: _ => some ⟨.error (.requestFailed m), 1, []⟩

/-! ## Concrete inputs used by individual claims -/

/-- Non-empty frame with a value column but no timestamp column (C2). -/
def dfC2 : DataFrame := ⟨1, [("value", [some 5])]⟩

/-- One-row frame whose value is null, for the strict-mode claim (C3). -/
def dfC3 : DataFrame := ⟨1, [("timestamp", [some 0]), ("value", [none])]⟩

/-- One-row frame with no nulls (C7). -/
def dfC7 : DataFrame := ⟨1, [("timestamp", [some 0]), ("value", [some 5])]⟩

/-- Timestamps of the spec example series (C8). -/
def tsC8 : List Cell :=
  [some 1, some 2, some 3, some 4, some 5, some 6, some 7, some 8]

/-- Values of the spec example series (C8). -/
def vsC8 : List Cell :=
  [some 10, some 11, some 9, some 10, some 12, some 11, some 10, some 1000]

/-- The spec example frame (C8). -/
def dfC8 : DataFrame := ⟨8, [("timestamp", tsC8), ("value", vsC8)]⟩

/-- Empty frame (used by the strict-mode and early-return claims). -/
def dfEmpty : DataFrame := ⟨0, [("timestamp", []), ("value", [])]⟩

/-! ## Lemmas -/

lemma head?_dropWhile_false {α : Type} (p : α → Bool) :
    ∀ (l : List α) (a : α), (l.dropWhile p).head? = some a → p a = false := by
  intro l
  induction l with
  | nil => intro a h; simp [List.dropWhile] at h
  | cons x xs ih =>
    intro a h
    rw [List.dropWhile_cons] at h
    by_cases hx : p x
    · rw [if_pos hx] at h
      exact ih a h
    · rw [if_neg hx] at h
      simp only [List.head?_cons, Option.some.injEq] at h
      subst h
      exact Bool.eq_false_iff.mpr hx

lemma cleanOldCalls_sublist (now : Time) (w : Window) (log : List Time) :
    List.Sublist (cleanOldCalls now w log) log :=
  List.dropWhile_sublist _

lemma head?_cleanOldCalls {now : Time} {w : Window} {log : List Time} {h : Time}
    (hh : (cleanOldCalls now w log).head? = some h) : now - w.winSecs ≤ h := by
  have := head?_dropWhile_false _ log h hh
  have hlt := of_decide_eq_false this
  exact le_of_not_lt hlt

lemma cleanOldCalls_len_le {t now : Time} {w : Window} {log : List Time}
    (hinv : WInv t w log) (htn : t < now) :
    (cleanOldCalls now w log).length ≤ w.maxCalls := by
  rcases eq_or_lt_of_le hinv.len_le with heq | hlt
  · cases hlog : log with
    | nil => rw [hlog] at heq; simp at heq
    | cons a tl =>
      have hhead : log.head? = some a := by rw [hlog]; rfl
      have hb := hinv.over a heq hhead
      have ha : decide (a < now - w.winSecs) = true :=
        decide_eq_true (by linarith)
      have hlen : tl.length = w.maxCalls := by
        rw [hlog] at heq; simp at heq; omega
      unfold cleanOldCalls
      rw [List.dropWhile_cons, if_pos ha]
      calc (tl.dropWhile _).length ≤ tl.length :=
            (List.dropWhile_sublist _).length_le
        _ = w.maxCalls := hlen
  · exact le_trans (cleanOldCalls_sublist now w log).length_le
      (Nat.lt_succ_iff.mp hlt)

lemma checkWindow_eq {now : Time} {w : Window} {log cleaned : List Time}
    {wait : ℚ} (h : checkWindow now w log = some (cleaned, wait)) :
    cleaned = cleanOldCalls now w log ∧ 0 ≤ wait ∧
    (w.maxCalls ≤ cleaned.length →
      ∃ hd, cleaned.head? = some hd ∧ wait = hd + w.winSecs - now) ∧
    (cleaned.length < w.maxCalls → wait = 0) := by
  simp only [checkWindow] at h
  by_cases hfull : w.maxCalls ≤ (cleanOldCalls now w log).length
  · rw [if_pos hfull] at h
    cases hh : (cleanOldCalls now w log).head? with
    | none => rw [hh] at h; cases h
    | some hd =>
      rw [hh] at h
      simp only [Option.some.injEq, Prod.mk.injEq] at h
      obtain ⟨h1, h2⟩ := h
      subst h1
      subst h2
      have hge : now - w.winSecs ≤ hd := head?_cleanOldCalls hh
      refine ⟨rfl, by linarith, fun _ => ⟨hd, hh, rfl⟩, fun hc => ?_⟩
      omega
  · rw [if_neg hfull] at h
    simp only [Option.some.injEq, Prod.mk.injEq] at h
    obtain ⟨h1, h2⟩ := h
    subst h1
    subst h2
    exact ⟨rfl, le_refl 0, fun hc => absurd hc hfull, fun _ => rfl⟩

lemma checkRateLimit_eq {now : Time} :
    ∀ {ws st : RL} {mw : ℚ}, checkRateLimit now ws = some (st, mw) →
      st = ws.map (fun p => (p.1, cleanOldCalls now p.1 p.2)) ∧ 0 ≤ mw ∧
      ∀ p ∈ ws, ∃ c wt, checkWindow now p.1 p.2 = some (c, wt) ∧ wt ≤ mw := by
  intro ws
  induction ws with
  | nil =>
    intro st mw h
    simp only [checkRateLimit, Option.some.injEq, Prod.mk.injEq] at h
    obtain ⟨h1, h2⟩ := h
    subst h1; subst h2
    exact ⟨rfl, le_refl 0, by simp⟩
  | cons p rest ih =>
    intro st mw h
    simp only [checkRateLimit] at h
    cases hcw : checkWindow now p.1 p.2 with
    | none => rw [hcw] at h; cases h
    | some cw =>
      rw [hcw] at h
      cases hrec : checkRateLimit now rest with
      | none => rw [hrec] at h; cases h
      | some r =>
        rw [hrec] at h
        simp only [Option.some.injEq, Prod.mk.injEq] at h
        obtain ⟨h1, h2⟩ := h
        obtain ⟨hst, hmw, hall⟩ := ih hrec
        obtain ⟨hcl, hwt, -, -⟩ := checkWindow_eq
          (show checkWindow now p.1 p.2 = some (cw.1, cw.2) by rw [hcw])
        subst h1
        subst h2
        refine ⟨?_, ?_, ?_⟩
        · simp only [List.map_cons, hst]
          rw [hcl]
        · exact le_trans hmw (le_max_right _ _)
        · intro q hq
          rcases List.mem_cons.mp hq with hq | hq
          · subst hq
            exact ⟨cw.1, cw.2, by rw [hcw], le_max_left _ _⟩
          · obtain ⟨c, wt, hc, hwtle⟩ := hall q hq
            exact ⟨c, wt, hc, le_trans hwtle (le_max_right _ _)⟩

lemma winv_record {t now recordT : Time} {w : Window} {log cleaned : List Time}
    {wait : ℚ} (hinv : WInv t w log) (hwin : 0 < w.winSecs)
    (htn : t < now) (hnr : now ≤ recordT)
    (hcw : checkWindow now w log = some (cleaned, wait))
    (hwle : wait ≤ recordT - now) :
    WInv recordT w (cleaned ++ [recordT]) := by
  obtain ⟨hcl, hwt0, hfull, hnotfull⟩ := checkWindow_eq hcw
  have hsub : List.Sublist cleaned log := by
    rw [hcl]; exact cleanOldCalls_sublist _ _ _
  have hsort : cleaned.Sorted (· ≤ ·) := List.Pairwise.sublist hsub hinv.sorted
  have hmem : ∀ e ∈ cleaned, e ≤ t := fun e he => hinv.le_t e (hsub.subset he)
  have hlen : cleaned.length ≤ w.maxCalls := by
    rw [hcl]; exact cleanOldCalls_len_le hinv htn
  constructor
  · refine List.pairwise_append.mpr ⟨hsort, List.pairwise_singleton _ _, ?_⟩
    intro x hx y hy
    rw [List.mem_singleton] at hy
    subst hy
    exact le_trans (hmem x hx) (by linarith)
  · intro e he
    rcases List.mem_append.mp he with he | he
    · exact le_trans (hmem e he) (by linarith)
    · rw [List.mem_singleton] at he; subst he; exact le_refl _
  · rw [List.length_append]
    simp only [List.length_singleton]
    omega
  · intro hd hlenEq hhd
    have hclen : w.maxCalls ≤ cleaned.length := by
      rw [List.length_append] at hlenEq
      simp only [List.length_singleton] at hlenEq
      omega
    obtain ⟨hd2, hh2, hwaitEq⟩ := hfull hclen
    have hha : (cleaned ++ [recordT]).head? = some hd2 := by
      rw [List.head?_append, hh2]; rfl
    rw [hha] at hhd
    have hdd : hd2 = hd := by
      simpa using hhd
    subst hdd
    have : hd2 + w.winSecs - now ≤ recordT - now := hwaitEq ▸ hwle
    linarith

lemma winv_clean {t now : Time} {w : Window} {log : List Time}
    (hinv : WInv t w log) (htn : t < now) :
    WInv now w (cleanOldCalls now w log) := by
  have hsub := cleanOldCalls_sublist now w log
  have hlen := cleanOldCalls_len_le hinv htn
  constructor
  · exact List.Pairwise.sublist hsub hinv.sorted
  · exact fun e he => le_trans (hinv.le_t e (hsub.subset he)) (le_of_lt htn)
  · omega
  · intro hd hlenEq hhd
    exact absurd hlenEq (by omega)

lemma acquire_cases {b : Bool} {now : Time} {ws : RL} {r : AcquireResult}
    (hacq : acquire b now ws = some r) :
    ∃ st mw, checkRateLimit now ws = some (st, mw) ∧ 0 ≤ mw ∧
      ((mw ≤ 0 ∧ r = ⟨true, now, recordCall now st⟩) ∨
       (0 < mw ∧ b = true ∧
         r = ⟨true, now + mw + 1/10, recordCall (now + mw + 1/10) st⟩) ∨
       (0 < mw ∧ b = false ∧ r = ⟨false, now, st⟩)) := by
  unfold acquire at hacq
  split at hacq
  · cases hacq
  · rename_i c hc
    have hcc : checkRateLimit now ws = some (c.1, c.2) := by rw [hc]
    obtain ⟨-, hmw, -⟩ := checkRateLimit_eq hcc
    refine ⟨c.1, c.2, hcc, hmw, ?_⟩
    by_cases h0 : c.2 ≤ 0
    · rw [if_pos h0] at hacq
      simp only [Option.some.injEq] at hacq
      exact Or.inl ⟨h0, hacq.symm⟩
    · rw [if_neg h0] at hacq
      push_neg at h0
      cases b with
      | true =>
        rw [if_pos rfl] at hacq
        simp only [Option.some.injEq] at hacq
        exact Or.inr (Or.inl ⟨h0, rfl, hacq.symm⟩)
      | false =>
        rw [if_neg Bool.false_ne_true] at hacq
        simp only [Option.some.injEq] at hacq
        exact Or.inr (Or.inr ⟨h0, rfl, hacq.symm⟩)

lemma acquire_preserves {b : Bool} {t now : Time} {ws : RL} {r : AcquireResult}
    (hrun : RunInv t ws) (htn : t < now) (hacq : acquire b now ws = some r) :
    now ≤ r.endTime ∧ RunInv r.endTime r.state := by
  obtain ⟨st, mw, hc, hmw0, hcases⟩ := acquire_cases hacq
  obtain ⟨hst, -, hall⟩ := checkRateLimit_eq hc
  have hrec : ∀ recordT, now ≤ recordT →
      (∀ p ∈ ws, ∀ c wt, checkWindow now p.1 p.2 = some (c, wt) →
        wt ≤ recordT - now) →
      RunInv recordT (recordCall recordT st) := by
    intro recordT hnr hw q hq
    rw [hst] at hq
    simp only [recordCall] at hq
    obtain ⟨q1, hq1, rfl⟩ := List.mem_map.mp hq
    obtain ⟨p, hp, rfl⟩ := List.mem_map.mp hq1
    obtain ⟨hp1, hp2, hp3⟩ := hrun p hp
    obtain ⟨c, wt, hcw, hwtle⟩ := hall p hp
    have hcc := (checkWindow_eq hcw).1
    refine ⟨hp1, hp2, ?_⟩
    exact winv_record hp3 hp2 htn hnr (by rw [← hcc]; exact hcw)
      (hw p hp c wt hcw)
  have hdet : ∀ p ∈ ws, ∀ c wt, checkWindow now p.1 p.2 = some (c, wt) →
      wt ≤ mw := by
    intro p hp c wt hcw
    obtain ⟨c2, wt2, hcw2, hle⟩ := hall p hp
    rw [hcw] at hcw2
    simp only [Option.some.injEq, Prod.mk.injEq] at hcw2
    rw [hcw2.2]
    exact hle
  rcases hcases with ⟨h0, hr⟩ | ⟨h0, hb, hr⟩ | ⟨h0, hb, hr⟩
  · subst hr
    refine ⟨le_refl now, hrec now (le_refl now) ?_⟩
    intro p hp c wt hcw
    have := hdet p hp c wt hcw
    linarith
  · subst hr
    refine ⟨by simp only; linarith, hrec _ (by linarith) ?_⟩
    intro p hp c wt hcw
    have := hdet p hp c wt hcw
    have heq : now + mw + 1/10 - now = mw + 1/10 := by ring
    rw [heq]
    linarith
  · subst hr
    refine ⟨le_refl now, ?_⟩
    intro q hq
    rw [hst] at hq
    obtain ⟨p, hp, rfl⟩ := List.mem_map.mp hq
    obtain ⟨hp1, hp2, hp3⟩ := hrun p hp
    exact ⟨hp1, hp2, winv_clean hp3 htn⟩

lemma runAcquires_winv :
    ∀ (cmds : List (ℚ × Bool)) (t : Time) (ws : RL) (tE : Time) (wsE : RL),
      (∀ c ∈ cmds, 0 < c.1) → RunInv t ws →
      runAcquires cmds t ws = some (tE, wsE) → RunInv tE wsE ∧ t ≤ tE := by
  intro cmds
  induction cmds with
  | nil =>
    intro t ws tE wsE hgap hinv h
    simp only [runAcquires, Option.some.injEq, Prod.mk.injEq] at h
    obtain ⟨h1, h2⟩ := h
    subst h1; subst h2
    exact ⟨hinv, le_refl t⟩
  | cons c cs ih =>
    intro t ws tE wsE hgap hinv h
    simp only [runAcquires] at h
    cases hacq : acquire c.2 (t + c.1) ws with
    | none => rw [hacq] at h; cases h
    | some r =>
      rw [hacq] at h
      have hgc : 0 < c.1 := hgap c (List.mem_cons_self c cs)
      have hpres := acquire_preserves hinv (by linarith) hacq
      have hrest := ih r.endTime r.state tE wsE
        (fun d hd => hgap d (List.mem_cons_of_mem c hd)) hpres.2 h
      exact ⟨hrest.1, by linarith [hpres.1, hrest.2]⟩

lemma winv_strictCount {t : Time} {w : Window} {log : List Time}
    (hinv : WInv t w log) : strictCount t w log ≤ w.maxCalls := by
  rcases eq_or_lt_of_le hinv.len_le with heq | hlt
  · cases hlog : log with
    | nil => rw [hlog] at heq; simp at heq
    | cons a tl =>
      have hhead : log.head? = some a := by rw [hlog]; rfl
      have hb := hinv.over a heq hhead
      have hlen : tl.length = w.maxCalls := by
        rw [hlog] at heq; simp at heq; omega
      unfold strictCount
      rw [List.countP_cons]
      have hfa : decide (t - w.winSecs < a) = false :=
        decide_eq_false (by linarith)
      rw [hfa]
      simp only [if_neg Bool.false_ne_true, Nat.add_zero]
      exact le_trans (List.countP_le_length _) (le_of_eq hlen)
  · unfold strictCount
    exact le_trans (List.countP_le_length _) (Nat.lt_succ_iff.mp hlt)

lemma strictCount_anti {s t : Time} {w : Window} {log : List Time}
    (hts : t ≤ s) : strictCount s w log ≤ strictCount t w log := by
  unfold strictCount
  apply List.countP_mono_left
  intro e he hp
  have := of_decide_eq_true hp
  exact decide_eq_true (by linarith)

lemma optWindow_winSecs_pos {c : Option Nat} {d : ℚ} (hd : 0 < d) :
    ∀ w ∈ optWindow c d, 0 < w.winSecs := by
  intro w hw
  cases c with
  | none => simp [optWindow] at hw
  | some m =>
    simp only [optWindow, List.mem_singleton] at hw
    subst hw
    exact hd

lemma mkLimits_winSecs_pos (cps cpm cph cpd : Option Nat) :
    ∀ w ∈ mkLimits cps cpm cph cpd, 0 < w.winSecs := by
  intro w hw
  unfold mkLimits at hw
  rcases List.mem_append.mp hw with h3 | h4
  · rcases List.mem_append.mp h3 with h2 | h3b
    · rcases List.mem_append.mp h2 with h1 | h2b
      · exact optWindow_winSecs_pos (by norm_num) w h1
      · exact optWindow_winSecs_pos (by norm_num) w h2b
    · exact optWindow_winSecs_pos (by norm_num) w h3b
  · exact optWindow_winSecs_pos (by norm_num) w h4

lemma runInv_init {cps cpm cph cpd : Option Nat} {t0 : Time}
    (hpos : ∀ w ∈ mkLimits cps cpm cph cpd, 1 ≤ w.maxCalls) :
    RunInv t0 (initState cps cpm cph cpd) := by
  intro p hp
  unfold initState at hp
  obtain ⟨w, hw, rfl⟩ := List.mem_map.mp hp
  refine ⟨hpos w hw, mkLimits_winSecs_pos cps cpm cph cpd w hw, ?_⟩
  constructor
  · exact List.sorted_nil
  · intro e he; simp at he
  · simp
  · intro hd hlen hh; simp at hlen

lemma checkWindow_isSome (now : Time) {w : Window} (log : List Time)
    (hmax : 1 ≤ w.maxCalls) : (checkWindow now w log).isSome := by
  simp only [checkWindow]
  by_cases hfull : w.maxCalls ≤ (cleanOldCalls now w log).length
  · rw [if_pos hfull]
    cases hcl : cleanOldCalls now w log with
    | nil =>
      rw [hcl] at hfull
      simp at hfull
      exact absurd hmax (by omega)
    | cons a tl => simp
  · rw [if_neg hfull]; simp

lemma checkRateLimit_isSome (now : Time) :
    ∀ {ws : RL}, (∀ p ∈ ws, 1 ≤ p.1.maxCalls) →
      (checkRateLimit now ws).isSome := by
  intro ws
  induction ws with
  | nil => intro h; simp [checkRateLimit]
  | cons p rest ih =>
    intro h
    have h1 := checkWindow_isSome now p.2
      (h p (List.mem_cons_self p rest))
    have h2 := ih (fun q hq => h q (List.mem_cons_of_mem p hq))
    cases hcw : checkWindow now p.1 p.2 with
    | none => rw [hcw] at h1; simp at h1
    | some cw =>
      cases hrec : checkRateLimit now rest with
      | none => rw [hrec] at h2; simp at h2
      | some r => simp [checkRateLimit, hcw, hrec]

lemma acquire_isSome (b : Bool) (now : Time) {ws : RL}
    (h : ∀ p ∈ ws, 1 ≤ p.1.maxCalls) : (acquire b now ws).isSome := by
  have h1 := checkRateLimit_isSome now h
  unfold acquire
  cases hc : checkRateLimit now ws with
  | none => rw [hc] at h1; simp at h1
  | some c =>
    simp only [hc]
    by_cases h0 : c.2 ≤ 0
    · rw [if_pos h0]; simp
    · rw [if_neg h0]
      cases b with
      | true => rw [if_pos rfl]; simp
      | false => rw [if_neg Bool.false_ne_true]; simp

lemma acquire_state_fst {b : Bool} {now : Time} {ws : RL} {r : AcquireResult}
    (hacq : acquire b now ws = some r) :
    r.state.map Prod.fst = ws.map Prod.fst := by
  obtain ⟨st, mw, hc, -, hcases⟩ := acquire_cases hacq
  obtain ⟨hst, -, -⟩ := checkRateLimit_eq hc
  have hstf : st.map Prod.fst = ws.map Prod.fst := by
    rw [hst, List.map_map]; rfl
  have hrecf : ∀ tt, (recordCall tt st).map Prod.fst = ws.map Prod.fst := by
    intro tt
    simp only [recordCall, List.map_map]
    exact hstf
  rcases hcases with ⟨-, hr⟩ | ⟨-, -, hr⟩ | ⟨-, -, hr⟩
  · subst hr; exact hrecf now
  · subst hr; exact hrecf _
  · subst hr; exact hstf

lemma runAcquires_total :
    ∀ (cmds : List (ℚ × Bool)) (t : Time) (ws : RL),
      (∀ p ∈ ws, 1 ≤ p.1.maxCalls) →
      (runAcquires cmds t ws).isSome ∧
      ∀ tE wsE, runAcquires cmds t ws = some (tE, wsE) →
        ∀ p ∈ wsE, 1 ≤ p.1.maxCalls := by
  intro cmds
  induction cmds with
  | nil =>
    intro t ws h
    refine ⟨by simp [runAcquires], ?_⟩
    intro tE wsE hh
    simp only [runAcquires, Option.some.injEq, Prod.mk.injEq] at hh
    obtain ⟨-, h2⟩ := hh
    subst h2
    exact h
  | cons c cs ih =>
    intro t ws h
    have ha := acquire_isSome c.2 (t + c.1) h
    cases hacq : acquire c.2 (t + c.1) ws with
    | none => rw [hacq] at ha; simp at ha
    | some r =>
      have hmax2 : ∀ p ∈ r.state, 1 ≤ p.1.maxCalls := by
        intro p hp
        have hf := acquire_state_fst hacq
        have hmem : p.1 ∈ r.state.map Prod.fst := List.mem_map_of_mem _ hp
        rw [hf] at hmem
        obtain ⟨q, hq, hq1⟩ := List.mem_map.mp hmem
        rw [← hq1]
        exact h q hq
      obtain ⟨ih1, ih2⟩ := ih r.endTime r.state hmax2
      have hstep : runAcquires (c :: cs) t ws = runAcquires cs r.endTime r.state := by
        simp [runAcquires, hacq]
      constructor
      · rw [hstep]; exact ih1
      · intro tE wsE hh
        rw [hstep] at hh
        exact ih2 tE wsE hh

lemma getStats_isSome {now : Time} :
    ∀ {ws : RL}, (∀ p ∈ ws, 1 ≤ p.1.maxCalls) → (getStats now ws).isSome := by
  intro ws
  induction ws with
  | nil => intro h; simp [getStats]
  | cons p rest ih =>
    intro h
    have h0 : p.1.maxCalls ≠ 0 := by
      have := h p (List.mem_cons_self p rest)
      omega
    have h2 := ih (fun q hq => h q (List.mem_cons_of_mem p hq))
    cases hrec : getStats now rest with
    | none => rw [hrec] at h2; simp at h2
    | some r => simp [getStats, h0, hrec]

/-! ## Claims about the rate limiter -/

/-- C1, counterexample.  A limiter allowing 1 call per second, driven by a
single caller at instants 0, 1 and 1: every acquire proceeds without
sleeping because the computed wait is exactly zero at the window boundary
(`_check_rate_limit` only blocks on `max_wait_time > 0`), yet at instant 1
the log `[0, 1, 1]` holds two calls of age strictly below one second —
above `max_calls = 1`.  Already after the first two calls the log `[0, 1]`
holds two entries of age at most the window duration.  So the claimed
occupancy bound fails, under either reading of "within the trailing
window". -/
theorem acquire_boundary_overfills_window :
    runAcquires [(0, false), (1, false), (0, false)] 0
        (initState (some 1) none none none) =
      some (1, [(⟨1, 1⟩, [0, 1, 1])]) ∧
    ¬ strictCount 1 ⟨1, 1⟩ [0, 1, 1] ≤ (⟨1, 1⟩ : Window).maxCalls ∧
    runAcquires [(0, false), (1, false)] 0 (initState (some 1) none none none) =
      some (1, [(⟨1, 1⟩, [0, 1])]) ∧
    ¬ inclCount 1 ⟨1, 1⟩ [0, 1] ≤ (⟨1, 1⟩ : Window).maxCalls := by
  refine ⟨?_, ?_, ?_, ?_⟩
  · norm_num [runAcquires, acquire, checkRateLimit, checkWindow, cleanOldCalls,
      recordCall, initState, mkLimits, optWindow, List.dropWhile]
  · norm_num [strictCount, List.countP, List.countP.go]
  · norm_num [runAcquires, acquire, checkRateLimit, checkWindow, cleanOldCalls,
      recordCall, initState, mkLimits, optWindow, List.dropWhile]
  · norm_num [inclCount, List.countP, List.countP.go]

/-- C1, amended.  For a well-configured limiter (every configured ceiling at
least 1) driven by a single caller whose successive `acquire` calls happen
at strictly increasing instants, no `acquire` fails, and at the end of any
such run — hence at every instant from then on, and likewise after every
prefix of the run — the number of logged calls of age strictly less than
the window duration never exceeds that window's `max_calls`.  The
amendments forced by `acquire_boundary_overfills_window`: ages are compared
strictly (a call exactly `window_duration` old no longer counts), and calls
made at exactly the same instant are excluded. -/
theorem acquire_strict_window_occupancy_bound
    (cps cpm cph cpd : Option Nat)
    (hpos : ∀ w ∈ mkLimits cps cpm cph cpd, 1 ≤ w.maxCalls)
    (cmds : List (ℚ × Bool)) (hgap : ∀ c ∈ cmds, 0 < c.1)
    (t0 tE : Time) (ws : RL)
    (hrun : runAcquires cmds t0 (initState cps cpm cph cpd) = some (tE, ws)) :
    ∀ p ∈ ws, ∀ s, tE ≤ s → strictCount s p.1 p.2 ≤ p.1.maxCalls := by
  obtain ⟨hinv, -⟩ :=
    runAcquires_winv cmds t0 _ tE ws hgap (runInv_init hpos) hrun
  intro p hp s hs
  obtain ⟨-, -, hw⟩ := hinv p hp
  exact le_trans (strictCount_anti hs) (winv_strictCount hw)

/-- Witness for the amended C1 theorem at a concrete run: ceiling 2 per
second, three calls at instants 1, 2 and 3. -/
theorem acquire_strict_window_occupancy_bound_witness :
    strictCount 3 ⟨2, 1⟩ [2, 3] ≤ (⟨2, 1⟩ : Window).maxCalls :=
  acquire_strict_window_occupancy_bound (some 2) none none none (by decide)
    [(1, true), (1, true), (1, false)] (by decide) 0 3 [(⟨2, 1⟩, [2, 3])]
    (by norm_num [runAcquires, acquire, checkRateLimit, checkWindow, cleanOldCalls,
      recordCall, initState, mkLimits, optWindow, List.dropWhile]) (⟨2, 1⟩, [2, 3]) (by decide) 3 (le_refl 3)

/-- C4, counterexample.  A limiter with 5 calls/second and 1 call/minute,
one granted call at instant 0, then a non-blocking acquire at instant 2:
it returns false (the minute window is full), yet `_check_rate_limit` has
already pruned the second-window deque from `[0]` to `[]` — the call logs
are not left exactly as they were. -/
theorem nonblocking_false_prunes_logs :
    runAcquires [(0, true)] 0 (initState (some 5) (some 1) none none) =
      some (0, [(⟨5, 1⟩, [0]), (⟨1, 60⟩, [0])]) ∧
    acquire false 2 [(⟨5, 1⟩, [0]), (⟨1, 60⟩, [0])] =
      some ⟨false, 2, [(⟨5, 1⟩, []), (⟨1, 60⟩, [0])]⟩ ∧
    ([] : List Time) ≠ [0] := by
  refine ⟨?_, ?_, by decide⟩
  · norm_num [runAcquires, acquire, checkRateLimit, checkWindow, cleanOldCalls,
      recordCall, initState, mkLimits, optWindow, List.dropWhile]
  · norm_num [runAcquires, acquire, checkRateLimit, checkWindow, cleanOldCalls,
      recordCall, initState, mkLimits, optWindow, List.dropWhile]

/-- C4, amended.  A non-blocking acquire that returns false returns at the
very instant it was called (it never sleeps) and adds no entry to any log;
the only mutation is the pruning of expired entries: every window keeps its
identity, its new log is a suffix of the old one, and every dropped entry
was older than the window. -/
theorem nonblocking_false_no_sleep_only_prunes
    (now : Time) (ws : RL) (r : AcquireResult)
    (hacq : acquire false now ws = some r) (hfalse : r.granted = false) :
    r.endTime = now ∧
    List.Forall₂ (fun old new : Window × List Time =>
        old.1 = new.1 ∧ ∃ dropped, old.2 = dropped ++ new.2 ∧
          ∀ e ∈ dropped, e < now - old.1.winSecs) ws r.state := by
  obtain ⟨st, mw, hc, hmw0, hcases⟩ := acquire_cases hacq
  obtain ⟨hst, -, -⟩ := checkRateLimit_eq hc
  rcases hcases with ⟨h0, hr⟩ | ⟨h0, hb, hr⟩ | ⟨h0, hb, hr⟩
  · rw [hr] at hfalse; simp at hfalse
  · exact absurd hb (by simp)
  · subst hr
    refine ⟨rfl, ?_⟩
    rw [hst, List.forall₂_map_right_iff, List.forall₂_same]
    intro p hp
    refine ⟨rfl, p.2.takeWhile (fun e => decide (e < now - p.1.winSecs)),
      (List.takeWhile_append_dropWhile _ _).symm, ?_⟩
    intro e he
    have hpe := List.mem_takeWhile_imp he
    exact of_decide_eq_true hpe

/-- Witness for the amended C4 theorem at the concrete refuting scenario. -/
theorem nonblocking_false_no_sleep_only_prunes_witness :
    (⟨false, 2, [(⟨5, 1⟩, []), (⟨1, 60⟩, [0])]⟩ : AcquireResult).endTime = 2 ∧
    List.Forall₂ (fun old new : Window × List Time =>
        old.1 = new.1 ∧ ∃ dropped, old.2 = dropped ++ new.2 ∧
          ∀ e ∈ dropped, e < 2 - old.1.winSecs)
      [(⟨5, 1⟩, [0]), (⟨1, 60⟩, [0])]
      (⟨false, 2, [(⟨5, 1⟩, []), (⟨1, 60⟩, [0])]⟩ : AcquireResult).state :=
  nonblocking_false_no_sleep_only_prunes 2 [(⟨5, 1⟩, [0]), (⟨1, 60⟩, [0])]
    ⟨false, 2, [(⟨5, 1⟩, []), (⟨1, 60⟩, [0])]⟩
    (by norm_num [runAcquires, acquire, checkRateLimit, checkWindow, cleanOldCalls,
      recordCall, initState, mkLimits, optWindow, List.dropWhile]) rfl

/-- C5, counterexample.  A limiter with 1 call/second: one granted call at
instant 0, then a blocking acquire at instant 0 sleeps until instant 1.1
and records without re-pruning, leaving the deque `[0, 1.1]` of length 2 —
above `max_calls = 1` immediately after a successful acquire. -/
theorem blocking_acquire_exceeds_max_calls_length :
    runAcquires [(0, true)] 0 (initState (some 1) none none none) =
      some (0, [(⟨1, 1⟩, [0])]) ∧
    acquire true 0 [(⟨1, 1⟩, [0])] =
      some ⟨true, 11/10, [(⟨1, 1⟩, [0, 11/10])]⟩ ∧
    ¬ ([(0 : ℚ), 11/10].length ≤ (⟨1, 1⟩ : Window).maxCalls) := by
  refine ⟨?_, ?_, by decide⟩
  · norm_num [runAcquires, acquire, checkRateLimit, checkWindow, cleanOldCalls,
      recordCall, initState, mkLimits, optWindow, List.dropWhile]
  · norm_num [runAcquires, acquire, checkRateLimit, checkWindow, cleanOldCalls,
      recordCall, initState, mkLimits, optWindow, List.dropWhile]

/-- C5, amended.  Over any single-caller run of a well-configured limiter at
strictly increasing call instants, every call log is always sorted
ascending; its length after any acquire is at most `max_calls + 1`, the
bound `max_calls` itself being exceeded by exactly the not-yet-pruned
boundary entry after a blocking acquire that slept (the counterexample) or
after an acquire admitted at a zero computed wait. -/
theorem call_log_sorted_and_length_bound
    (cps cpm cph cpd : Option Nat)
    (hpos : ∀ w ∈ mkLimits cps cpm cph cpd, 1 ≤ w.maxCalls)
    (cmds : List (ℚ × Bool)) (hgap : ∀ c ∈ cmds, 0 < c.1)
    (t0 tE : Time) (ws : RL)
    (hrun : runAcquires cmds t0 (initState cps cpm cph cpd) = some (tE, ws)) :
    ∀ p ∈ ws, p.2.Sorted (· ≤ ·) ∧ p.2.length ≤ p.1.maxCalls + 1 := by
  obtain ⟨hinv, -⟩ :=
    runAcquires_winv cmds t0 _ tE ws hgap (runInv_init hpos) hrun
  intro p hp
  obtain ⟨-, -, hw⟩ := hinv p hp
  exact ⟨hw.sorted, hw.len_le⟩

/-- Witness for the amended C5 theorem at a concrete run: ceiling 1 per
second, calls at instants 1 and 2; the second call is admitted at a zero
wait and the log reaches length `max_calls + 1 = 2`. -/
theorem call_log_sorted_and_length_bound_witness :
    List.Sorted (· ≤ ·) [(1 : ℚ), 2] ∧
    [(1 : ℚ), 2].length ≤ (⟨1, 1⟩ : Window).maxCalls + 1 :=
  call_log_sorted_and_length_bound (some 1) none none none (by decide)
    [(1, true), (1, true)] (by decide) 0 2 [(⟨1, 1⟩, [1, 2])]
    (by norm_num [runAcquires, acquire, checkRateLimit, checkWindow, cleanOldCalls,
      recordCall, initState, mkLimits, optWindow, List.dropWhile]) (⟨1, 1⟩, [1, 2]) (by decide)

/-- C6, counterexample.  `RateLimiter.__init__` performs no validation: a
zero ceiling is accepted and the constructor returns normally with the
misconfigured window installed; the failure surfaces only later, as an
`IndexError` (modelled `none`) inside `acquire`, not as a configuration
error at construction. -/
theorem init_accepts_zero_ceiling_and_acquire_crashes :
    initState (some 0) none none none = [(⟨0, 1⟩, [])] ∧
    acquire true 0 [(⟨0, 1⟩, [])] = none ∧
    acquire false 0 [(⟨0, 1⟩, [])] = none := by
  refine ⟨rfl, ?_, ?_⟩
  · norm_num [runAcquires, acquire, checkRateLimit, checkWindow, cleanOldCalls,
      recordCall, initState, mkLimits, optWindow, List.dropWhile]
  · norm_num [runAcquires, acquire, checkRateLimit, checkWindow, cleanOldCalls,
      recordCall, initState, mkLimits, optWindow, List.dropWhile]

/-- C6, amended.  Construction never raises for any configuration (it is a
total function that installs exactly the non-`None` windows); a window with
a zero ceiling makes `acquire` raise at call time instead of failing fast
at construction.  For well-configured limiters (every ceiling at least 1)
the ordinary operations never raise: every run of acquires succeeds and
`get_stats` succeeds on every reachable state (`reset` is total by
construction). -/
theorem well_configured_operations_never_fail
    (cps cpm cph cpd : Option Nat)
    (hpos : ∀ w ∈ mkLimits cps cpm cph cpd, 1 ≤ w.maxCalls)
    (cmds : List (ℚ × Bool)) (t0 : Time) :
    (runAcquires cmds t0 (initState cps cpm cph cpd)).isSome ∧
    ∀ tE wsE,
      runAcquires cmds t0 (initState cps cpm cph cpd) = some (tE, wsE) →
      ∀ now, (getStats now wsE).isSome := by
  have hmax : ∀ p ∈ initState cps cpm cph cpd, 1 ≤ p.1.maxCalls := by
    intro p hp
    unfold initState at hp
    obtain ⟨w, hw, rfl⟩ := List.mem_map.mp hp
    exact hpos w hw
  obtain ⟨h1, h2⟩ := runAcquires_total cmds t0 _ hmax
  exact ⟨h1, fun tE wsE hrun now => getStats_isSome (h2 tE wsE hrun)⟩

/-- Witness for the amended C6 theorem: a 1-per-second limiter driven by two
blocking acquires never fails. -/
theorem well_configured_operations_never_fail_witness :
    (runAcquires [((0 : ℚ), true), (0, true)] 0
      (initState (some 1) none none none)).isSome :=
  (well_configured_operations_never_fail (some 1) none none none (by decide)
    [(0, true), (0, true)] 0).1

/-! ## Lemmas about the validator -/

lemma quantileLin_eval {s : List ℚ} {q : ℚ} (h : ℚ) (i : Nat)
    (hh : q * ((s.length : ℚ) - 1) = h) (hi : (⌊h⌋).toNat = i) :
    quantileLin s q =
      s.getD i 0 + (h - (i : ℚ)) * (s.getD (i + 1) (s.getD i 0) - s.getD i 0) := by
  simp only [quantileLin, hh, hi]

lemma detectOutliers_vsC8_raw :
    detectOutliersIqr (3/2) [some 10, some 11, some 9, some 10, some 12,
      some 11, some 10, some 1000] = [1000] := by
  have hsort : sortAsc [10, 11, 9, 10, 12, 11, 10, 1000] =
      [9, 10, 10, 10, 11, 11, 12, 1000] := by
    norm_num [sortAsc, insertSorted]
  have hq1 : quantileLin [9, 10, 10, 10, 11, 11, 12, 1000] (1/4) = 10 := by
    rw [quantileLin_eval (7/4) 1 (by norm_num) (by norm_num)]
    norm_num
  have hq3 : quantileLin [9, 10, 10, 10, 11, 11, 12, 1000] (3/4) = 45/4 := by
    rw [quantileLin_eval (21/4) 5 (by norm_num) (by norm_num <;> rfl)]
    norm_num
  simp only [detectOutliersIqr, List.filterMap_cons, List.filterMap_nil]
  norm_num [hsort, hq1, hq3, List.filter_cons, List.filter_nil]

lemma detectOutliers_vsC8 : detectOutliersIqr (3/2) vsC8 = [1000] := by
  have h := detectOutliers_vsC8_raw
  simpa [vsC8] using h

lemma validateTimeSeries_main {strict : Bool} {hist : List ValidationResult}
    {df : DataFrame} {tcol vcol : String} {vdata tdata : List Cell}
    (hne : df.isEmpty = false)
    (hv : df.col? vcol = some vdata)
    (ht : df.col? tcol = some tdata) :
    validateTimeSeries strict hist df tcol vcol =
      (logAndStoreResults strict hist
          (timeSeriesRules df.nrows tcol vcol vdata tdata)).map
        (fun h2 => (timeSeriesRules df.nrows tcol vcol vdata tdata, h2)) := by
  simp only [validateTimeSeries, hne, hv, ht, Option.isSome_some, if_true,
    Bool.false_eq_true, if_false, List.nil_append]
  cases hres : logAndStoreResults strict hist
      (timeSeriesRules df.nrows tcol vcol vdata tdata) with
  | ok h2 => simp [Except.map]
  | error e => simp [Except.map]

lemma mem_missingBlock {vcol : String} {nrows : Nat} {vdata : List Cell}
    {r : ValidationResult} (h : r ∈ missingBlock vcol nrows vdata) :
    r = missingFinding vcol nrows vdata ∧ 0 < nullCount vdata := by
  simp only [missingBlock] at h
  split at h
  · rw [List.mem_singleton] at h
    exact ⟨h, by assumption⟩
  · simp at h

lemma mem_dupBlock {tcol : String} {tdata : List Cell}
    {r : ValidationResult} (h : r ∈ dupBlock tcol tdata) :
    r = dupFinding tcol tdata ∧ 0 < dupCount tdata := by
  simp only [dupBlock] at h
  split at h
  · rw [List.mem_singleton] at h
    exact ⟨h, by assumption⟩
  · simp at h

lemma mem_sortBlock {tcol : String} {tdata : List Cell}
    {r : ValidationResult} (h : r ∈ sortBlock tcol tdata) :
    r = sortFinding tcol tdata := by
  simp only [sortBlock, List.mem_singleton] at h
  exact h

lemma mem_outlierBlock {vcol : String} {nrows : Nat} {vdata : List Cell}
    {r : ValidationResult} (h : r ∈ outlierBlock vcol nrows vdata) :
    r = outlierFinding vcol nrows vdata ∧
      0 < (detectOutliersIqr (3/2) vdata).length := by
  simp only [outlierBlock] at h
  split at h
  · rw [List.mem_singleton] at h
    exact ⟨h, by assumption⟩
  · simp at h

lemma mem_timeSeriesRules {nrows : Nat} {tcol vcol : String}
    {vdata tdata : List Cell} {r : ValidationResult}
    (h : r ∈ timeSeriesRules nrows tcol vcol vdata tdata) :
    r ∈ missingBlock vcol nrows vdata ∨ r ∈ dupBlock tcol tdata ∨
      r ∈ sortBlock tcol tdata ∨ r ∈ outlierBlock vcol nrows vdata := by
  simp only [timeSeriesRules] at h
  rcases List.mem_append.mp h with h3 | h4
  · rcases List.mem_append.mp h3 with h2 | h3b
    · rcases List.mem_append.mp h2 with h1 | h2b
      · exact Or.inl h1
      · exact Or.inr (Or.inl h2b)
    · exact Or.inr (Or.inr (Or.inl h3b))
  · exact Or.inr (Or.inr (Or.inr h4))

lemma timeSeriesRules_not_critical {nrows : Nat} {tcol vcol : String}
    {vdata tdata : List Cell} :
    ∀ r ∈ timeSeriesRules nrows tcol vcol vdata tdata,
      (r.severity == Severity.critical) = false := by
  intro r hr
  rcases mem_timeSeriesRules hr with h | h | h | h
  · obtain ⟨h1, -⟩ := mem_missingBlock h
    subst h1
    simp only [missingFinding]
    split <;> rfl
  · obtain ⟨h1, -⟩ := mem_dupBlock h
    subst h1
    rfl
  · have h1 := mem_sortBlock h
    subst h1
    rfl
  · obtain ⟨h1, -⟩ := mem_outlierBlock h
    subst h1
    rfl

lemma find_raisesOn_true_eq {rs : List ValidationResult}
    (hnc : ∀ r ∈ rs, (r.severity == Severity.critical) = false) :
    rs.find? (raisesOn true) =
      rs.find? (fun r => r.severity == Severity.error && !r.is_valid) := by
  induction rs with
  | nil => rfl
  | cons a l ih =>
    have ha : raisesOn true a = (a.severity == Severity.error && !a.is_valid) := by
      unfold raisesOn
      rw [hnc a (List.mem_cons_self a l)]
      simp
    rw [List.find?_cons, List.find?_cons, ha]
    cases hcond : (a.severity == Severity.error && !a.is_valid) with
    | true => rfl
    | false =>
      simp only [cond_false]
      exact ih (fun r hr => hnc r (List.mem_cons_of_mem a hr))

lemma find_raisesOn_false {rs : List ValidationResult} :
    rs.find? (raisesOn false) = none := by
  rw [List.find?_eq_none]
  intro x hx
  simp [raisesOn]

lemma logAndStore_strict_raise {hist rs : List ValidationResult}
    {r : ValidationResult}
    (hnc : ∀ x ∈ rs, (x.severity == Severity.critical) = false)
    (hfind : rs.find?
        (fun x => x.severity == Severity.error && !x.is_valid) = some r) :
    logAndStoreResults true hist rs =
      .error (.valueError (.validationFailed r.message), hist ++ rs) := by
  have hfind2 : rs.find? (raisesOn true) = some r := by
    rw [find_raisesOn_true_eq hnc, hfind]
  have hsev : (r.severity == Severity.critical) = false := by
    have h1 := List.find?_some hfind
    have h2 : (r.severity == Severity.error) = true :=
      ((Bool.and_eq_true _ _).mp h1).1
    have h3 : r.severity = Severity.error := eq_of_beq h2
    rw [h3]
    rfl
  have hmsg : raiseMsg r = .validationFailed r.message := by
    unfold raiseMsg
    rw [hsev]
    rfl
  simp only [logAndStoreResults, hfind2, hmsg]

lemma rangeAfterMin_not_critical {f : String} {sev : Severity} {x : ℚ}
    {hi : Option ℚ} (hs : (sev == Severity.critical) = false) :
    ((rangeAfterMin f sev x hi).severity == Severity.critical) = false := by
  cases hi with
  | none => rfl
  | some m =>
    simp only [rangeAfterMin]
    split
    · exact hs
    · rfl

lemma validateNumericRange_not_critical {v : PyValue} {f : String}
    {lo hi : Option ℚ} {sev : Severity}
    (hs : (sev == Severity.critical) = false) :
    ((validateNumericRange v f lo hi sev).severity == Severity.critical)
      = false := by
  unfold validateNumericRange
  split
  · exact hs
  · split
    · rfl
    · split
      · split
        · exact hs
        · exact rangeAfterMin_not_critical hs
      · exact rangeAfterMin_not_critical hs

lemma validateTimestamp_not_critical {now : ℚ} {v : PyValue}
    {f : String} :
    ((validateTimestamp now v f).severity == Severity.critical) = false := by
  unfold validateTimestamp
  split
  · rfl
  · split
    · rfl
    · split
      · rfl
      · split
        · rfl
        · rfl

lemma validateDateFormat_not_critical {v : PyValue} {f : String} :
    ((validateDateFormat v f).severity == Severity.critical) = false := by
  unfold validateDateFormat
  split
  · rfl
  · split
    · rfl
    · rfl

lemma validateNotNull_not_critical {v : PyValue} {f : String} :
    ((validateNotNull v f).severity == Severity.critical) = false := by
  cases v with
  | pyNone => rfl
  | num q => rfl
  | other fo dto e => cases e <;> rfl

lemma mem_requiredFieldsBlock {data : PyDict} {required : List String}
    {r : ValidationResult} (h : r ∈ requiredFieldsBlock data required) :
    (r.severity == Severity.critical) = false := by
  simp only [requiredFieldsBlock] at h
  split at h
  · rw [List.mem_singleton] at h
    subst h
    rfl
  · rw [List.mem_singleton] at h
    subst h
    rfl

lemma mem_optionalRange {data : PyDict} {f : String} {lo hi : Option ℚ}
    {sev : Severity} {r : ValidationResult}
    (h : r ∈ optionalRange data f lo hi sev)
    (hs : (sev == Severity.critical) = false) :
    (r.severity == Severity.critical) = false := by
  simp only [optionalRange] at h
  split at h
  · rw [List.mem_singleton] at h
    subst h
    exact validateNumericRange_not_critical hs
  · simp at h

lemma mem_lastUpdatedBlock {now : ℚ} {data : PyDict}
    {r : ValidationResult} (h : r ∈ lastUpdatedBlock now data) :
    (r.severity == Severity.critical) = false := by
  simp only [lastUpdatedBlock] at h
  split at h
  · rw [List.mem_singleton] at h
    subst h
    exact validateTimestamp_not_critical
  · simp at h

lemma mem_dateBlock {data : PyDict} {r : ValidationResult}
    (h : r ∈ dateBlock data) :
    (r.severity == Severity.critical) = false := by
  simp only [dateBlock] at h
  split at h
  · rw [List.mem_singleton] at h
    subst h
    exact validateDateFormat_not_critical
  · simp at h

lemma mem_indicatorValueBlock {ind : String} {v : PyValue}
    {r : ValidationResult} (h : r ∈ indicatorValueBlock ind v) :
    (r.severity == Severity.critical) = false := by
  simp only [indicatorValueBlock] at h
  split at h
  · rw [List.mem_singleton] at h
    subst h
    exact validateNumericRange_not_critical rfl
  · split at h
    · rw [List.mem_singleton] at h
      subst h
      exact validateNumericRange_not_critical rfl
    · split at h
      · rw [List.mem_singleton] at h
        subst h
        exact validateNumericRange_not_critical rfl
      · rw [List.mem_singleton] at h
        subst h
        exact validateNotNull_not_critical

lemma mem_valueBlock {data : PyDict} {ind : String}
    {r : ValidationResult} (h : r ∈ valueBlock data ind) :
    (r.severity == Severity.critical) = false := by
  simp only [valueBlock] at h
  split at h
  · exact mem_indicatorValueBlock h
  · simp at h

lemma cryptoRules_not_critical {now : ℚ} {data : PyDict}
    {required : List String} :
    ∀ r ∈ cryptoRules now data required,
      (r.severity == Severity.critical) = false := by
  intro r hr
  simp only [cryptoRules] at hr
  rcases List.mem_append.mp hr with h | hG
  · rcases List.mem_append.mp h with h | hF
    · rcases List.mem_append.mp h with h | hE
      · rcases List.mem_append.mp h with h | hD
        · rcases List.mem_append.mp h with h | hC
          · rcases List.mem_append.mp h with hA | hB
            · exact mem_requiredFieldsBlock hA
            · exact mem_optionalRange hB rfl
          · exact mem_optionalRange hC rfl
        · exact mem_optionalRange hD rfl
      · exact mem_optionalRange hE rfl
    · exact mem_optionalRange hF rfl
  · exact mem_lastUpdatedBlock hG

lemma indicatorRules_not_critical {data : PyDict} {ind : String} :
    ∀ r ∈ indicatorRules data ind,
      (r.severity == Severity.critical) = false := by
  intro r hr
  simp only [indicatorRules] at hr
  rcases List.mem_append.mp hr with h | hV
  · rcases List.mem_append.mp h with hA | hD
    · exact mem_requiredFieldsBlock hA
    · exact mem_dateBlock hD
  · exact mem_valueBlock hV

lemma rules_dfC3 :
    timeSeriesRules dfC3.nrows "timestamp" "value" [none] [some 0] =
      [{ is_valid := false, field_name := "value", severity := Severity.error,
         message := VMessage.missingValues 1 100 },
       { is_valid := true, field_name := "timestamp", severity := .info,
         message := .timeSeriesSorted }] := by
  have hdo : detectOutliersIqr (3/2) ([none] : List Cell) = [] := by
    norm_num [detectOutliersIqr, List.filterMap_nil, List.filterMap_cons]
  norm_num [timeSeriesRules, missingBlock, missingFinding, dupBlock,
    dupFinding, sortBlock, sortFinding, outlierBlock, outlierFinding,
    nullCount, dupCount, dupCountAux, monoInc, allLe, hdo, dfC3,
    List.filter_cons, List.filter_nil, List.filterMap_cons, List.filterMap_nil]

lemma detectOutliers_single : detectOutliersIqr (3/2) ([some 5] : List Cell) = [] := by
  have hq1 : quantileLin [5] (1/4) = 5 := by
    rw [quantileLin_eval 0 0 (by norm_num) (by norm_num)]
    norm_num [List.getD_cons_zero, List.getD_cons_succ, List.getD_nil]
  have hq3 : quantileLin [5] (3/4) = 5 := by
    rw [quantileLin_eval 0 0 (by norm_num) (by norm_num)]
    norm_num [List.getD_cons_zero, List.getD_cons_succ, List.getD_nil]
  norm_num [detectOutliersIqr, sortAsc, insertSorted, hq1, hq3,
    List.filterMap_cons, List.filterMap_nil, List.filter_cons, List.filter_nil]

lemma rules_dfC7 :
    timeSeriesRules dfC7.nrows "timestamp" "value" [some 5] [some 0] =
      [{ is_valid := true, field_name := "timestamp", severity := .info,
         message := .timeSeriesSorted }] := by
  norm_num [timeSeriesRules, missingBlock, missingFinding, dupBlock,
    dupFinding, sortBlock, sortFinding, outlierBlock, outlierFinding,
    nullCount, dupCount, dupCountAux, monoInc, allLe, detectOutliers_single,
    dfC7, List.filter_cons, List.filter_nil, List.filterMap_cons,
    List.filterMap_nil]

lemma rules_dfC8 :
    timeSeriesRules dfC8.nrows "timestamp" "value" vsC8 tsC8 =
      [{ is_valid := true, field_name := "timestamp", severity := .info,
         message := .timeSeriesSorted },
       { is_valid := false, field_name := "value", severity := .warning,
         message := .detectedOutliers 1 (25/2),
         invalid_values := some [1000] }] := by
  norm_num [timeSeriesRules, missingBlock, missingFinding, dupBlock,
    dupFinding, sortBlock, sortFinding, outlierBlock, outlierFinding,
    nullCount, dupCount, dupCountAux, monoInc, allLe,
    detectOutliers_vsC8_raw, dfC8, vsC8, tsC8, List.filter_cons,
    List.filter_nil, List.filterMap_cons, List.filterMap_nil, List.take]

/-! ## Claims about the validator and the client -/

/-- C2.  The failing input of the code bug: a non-empty frame that has the
value column but no timestamp column.  In permissive mode the source
appends a finding for the missing timestamp column at line 258 and
continues, but the unguarded `df[timestamp_col].duplicated()` at line 287
then raises a `KeyError` instead of returning the findings — the guard
present at line 298 for the sort check is missing at line 287. -/
theorem validate_time_series_missing_timestamp_raises_keyerror :
    validateTimeSeries false [] dfC2 "timestamp" "value" =
      .error (.keyError "timestamp", []) := rfl

/-- C3, counterexample.  In strict mode, `validate_time_series` on an empty
frame returns its ERROR-severity, invalid finding normally — the early
return skips `_log_and_store_results`, so no exception is raised and the
caller does receive a return value. -/
theorem strict_empty_df_returns_error_finding_without_raise :
    validateTimeSeries true [] dfEmpty "timestamp" "value" =
      .ok ([{ is_valid := false, field_name := "dataframe",
              severity := .error, message := .dataFrameEmpty }], []) ∧
    ({ is_valid := false, field_name := "dataframe", severity := .error,
       message := .dataFrameEmpty } : ValidationResult).severity =
        Severity.error ∧
    ({ is_valid := false, field_name := "dataframe", severity := .error,
       message := .dataFrameEmpty } : ValidationResult).is_valid = false :=
  ⟨rfl, rfl, rfl⟩

/-- C3, amended.  The raise-on-ERROR behaviour holds for every rule
battery that reaches `_log_and_store_results`: whenever a strict-mode
`validate_time_series`, `validate_crypto_data` or `validate_macro_data`
call computes a rule battery containing an invalid ERROR finding, the call
raises a `ValueError` carrying the first such finding's message and the
caller receives no list (the findings of the `validate_time_series` early
returns — empty frame, missing value column — are returned without
raising; see the counterexample). -/
theorem strict_mode_raises_on_first_error_finding :
    (∀ (hist : List ValidationResult) (df : DataFrame)
        (tcol vcol : String) (vdata tdata : List Cell)
        (r : ValidationResult),
      df.isEmpty = false → df.col? vcol = some vdata →
      df.col? tcol = some tdata →
      (timeSeriesRules df.nrows tcol vcol vdata tdata).find?
          (fun x => x.severity == Severity.error && !x.is_valid) = some r →
      validateTimeSeries true hist df tcol vcol =
        .error (.valueError (.validationFailed r.message),
          hist ++ timeSeriesRules df.nrows tcol vcol vdata tdata)) ∧
    (∀ (hist : List ValidationResult) (now : ℚ) (data : PyDict)
        (req : Option (List String)) (r : ValidationResult),
      (cryptoRules now data (req.getD defaultCryptoRequired)).find?
          (fun x => x.severity == Severity.error && !x.is_valid) = some r →
      validateCryptoData true hist now data req =
        .error (.valueError (.validationFailed r.message),
          hist ++ cryptoRules now data (req.getD defaultCryptoRequired))) ∧
    (∀ (hist : List ValidationResult) (data : PyDict) (ind : String)
        (r : ValidationResult),
      (indicatorRules data ind).find?
          (fun x => x.severity == Severity.error && !x.is_valid) = some r →
      validateMacroData true hist data ind =
        .error (.valueError (.validationFailed r.message),
          hist ++ indicatorRules data ind)) := by
  refine ⟨?_, ?_, ?_⟩
  · intro hist df tcol vcol vdata tdata r hne hv ht hfind
    rw [validateTimeSeries_main hne hv ht,
      logAndStore_strict_raise timeSeriesRules_not_critical hfind]
    rfl
  · intro hist now data req r hfind
    simp only [validateCryptoData]
    rw [logAndStore_strict_raise cryptoRules_not_critical hfind]
    rfl
  · intro hist data ind r hfind
    simp only [validateMacroData]
    rw [logAndStore_strict_raise indicatorRules_not_critical hfind]
    rfl

/-- Witness for the amended C3 theorem: each batch function raises at a
concrete strict-mode input — a one-row frame whose value is null (100
percent missing, an invalid ERROR finding), an empty crypto record missing
all default required fields, and a macro record whose date is None. -/
theorem strict_mode_raises_on_first_error_finding_witness :
    validateTimeSeries true [] dfC3 "timestamp" "value" =
      .error (.valueError (.validationFailed (.missingValues 1 100)),
        [] ++ timeSeriesRules 1 "timestamp" "value" [none] [some 0]) ∧
    validateCryptoData true [] 0 [] none =
      .error (.valueError (.validationFailed
          (.missingRequiredFields defaultCryptoRequired)),
        [] ++ cryptoRules 0 [] defaultCryptoRequired) ∧
    validateMacroData true [] [("date", .pyNone), ("value", .pyNone)]
        "other" =
      .error (.valueError (.validationFailed .fieldIsNone),
        [] ++ indicatorRules [("date", .pyNone), ("value", .pyNone)]
          "other") :=
  ⟨strict_mode_raises_on_first_error_finding.1 [] dfC3 "timestamp" "value"
      [none] [some 0]
      { is_valid := false, field_name := "value",
        severity := Severity.error,
        message := VMessage.missingValues 1 100 }
      rfl rfl rfl (by rw [rules_dfC3]; rfl),
   strict_mode_raises_on_first_error_finding.2.1 [] 0 [] none
      { is_valid := false, field_name := "required_fields",
        severity := Severity.error,
        message := VMessage.missingRequiredFields defaultCryptoRequired }
      (by rfl),
   strict_mode_raises_on_first_error_finding.2.2 []
      [("date", .pyNone), ("value", .pyNone)] "other"
      { is_valid := false, field_name := "date",
        severity := Severity.error, message := VMessage.fieldIsNone }
      (by rfl)⟩

/-- C7, counterexample.  A one-row frame with no nulls: the rule battery
contains no missing-value finding at all — the count-and-percentage result
is not reported when the count is zero (the source only appends it under
`if missing_values > 0`). -/
theorem zero_nulls_reports_no_missing_finding :
    validateTimeSeries false [] dfC7 "timestamp" "value" =
      .ok ([{ is_valid := true, field_name := "timestamp", severity := .info,
              message := .timeSeriesSorted }],
           [{ is_valid := true, field_name := "timestamp", severity := .info,
              message := .timeSeriesSorted }]) ∧
    ∀ r ∈ [({ is_valid := true, field_name := "timestamp",
              severity := Severity.info,
              message := VMessage.timeSeriesSorted } : ValidationResult)],
      isMissingFinding r = false := by
  constructor
  · rw [validateTimeSeries_main
      (show dfC7.isEmpty = false from rfl)
      (show dfC7.col? "value" = some [some 5] from rfl)
      (show dfC7.col? "timestamp" = some [some 0] from rfl), rules_dfC7]
    simp only [logAndStoreResults, find_raisesOn_false, Except.map,
      List.nil_append]
  · intro r hr
    rw [List.mem_singleton] at hr
    subst hr
    rfl

/-- C7, amended.  For a non-empty frame with both columns, permissive
`validate_time_series` returns exactly the rule battery, and the battery
carries the null count and percentage if and only if the count is
positive; when present, the finding is valid with severity WARNING exactly
when the percentage is below 10, invalid with severity ERROR at or above
10. -/
theorem missing_values_finding_iff_positive_count
    (hist : List ValidationResult) (df : DataFrame) (tcol vcol : String)
    (vdata tdata : List Cell)
    (hne : df.isEmpty = false) (hv : df.col? vcol = some vdata)
    (ht : df.col? tcol = some tdata) :
    validateTimeSeries false hist df tcol vcol =
      .ok (timeSeriesRules df.nrows tcol vcol vdata tdata,
           hist ++ timeSeriesRules df.nrows tcol vcol vdata tdata) ∧
    (nullCount vdata = 0 →
      ∀ r ∈ timeSeriesRules df.nrows tcol vcol vdata tdata,
        isMissingFinding r = false) ∧
    (0 < nullCount vdata →
      missingFinding vcol df.nrows vdata ∈
        timeSeriesRules df.nrows tcol vcol vdata tdata) := by
  refine ⟨?_, ?_, ?_⟩
  · rw [validateTimeSeries_main hne hv ht]
    simp only [logAndStoreResults, find_raisesOn_false, Except.map]
  · intro h0 r hr
    rcases mem_timeSeriesRules hr with h | h | h | h
    · obtain ⟨-, hpos⟩ := mem_missingBlock h
      omega
    · obtain ⟨h1, -⟩ := mem_dupBlock h
      subst h1
      rfl
    · have h1 := mem_sortBlock h
      subst h1
      by_cases hm : monoInc tdata <;> simp [isMissingFinding, sortFinding, hm]
    · obtain ⟨h1, -⟩ := mem_outlierBlock h
      subst h1
      rfl
  · intro h0
    have hmem : missingFinding vcol df.nrows vdata ∈
        missingBlock vcol df.nrows vdata := by
      simp only [missingBlock]
      rw [if_pos h0]
      exact List.mem_singleton_self _
    simp only [timeSeriesRules]
    exact List.mem_append_left _ (List.mem_append_left _
      (List.mem_append_left _ hmem))

/-- Witness for the amended C7 theorem at the all-null one-row frame. -/
theorem missing_values_finding_iff_positive_count_witness :
    validateTimeSeries false [] dfC3 "timestamp" "value" =
      .ok (timeSeriesRules 1 "timestamp" "value" [none] [some 0],
           [] ++ timeSeriesRules 1 "timestamp" "value" [none] [some 0]) :=
  (missing_values_finding_iff_positive_count [] dfC3 "timestamp" "value"
    [none] [some 0] rfl rfl rfl).1

/-- C8.  On the spec series [10,11,9,10,12,11,10,1000] the IQR method flags
exactly 1000 (Q1 = 10, Q3 = 11.25, bounds 8.125 and 13.125); the outlier
share 1/8 = 12.5 percent is at least 5 percent, so the battery carries the
finding with severity WARNING and is_valid false; and in general every
outlier finding the battery can carry has severity WARNING with is_valid
deciding exactly the 5-percent threshold. -/
theorem outlier_iqr_flags_thousand_and_warning_severity :
    detectOutliersIqr (3/2) vsC8 = [1000] ∧
    ({ is_valid := false, field_name := "value", severity := .warning,
       message := .detectedOutliers 1 (25/2), invalid_values := some [1000] } :
      ValidationResult) ∈
        timeSeriesRules dfC8.nrows "timestamp" "value" vsC8 tsC8 ∧
    ∀ (nrows : Nat) (tcol vcol : String) (vdata tdata : List Cell),
      ∀ r ∈ timeSeriesRules nrows tcol vcol vdata tdata,
        isOutlierFinding r = true →
          r.severity = Severity.warning ∧
          r.is_valid = decide
            ((((detectOutliersIqr (3/2) vdata).length : ℚ) / (nrows : ℚ)) *
              100 < 5) := by
  refine ⟨detectOutliers_vsC8, ?_, ?_⟩
  · rw [rules_dfC8]
    exact List.mem_cons_of_mem _ (List.mem_singleton_self _)
  · intro nrows tcol vcol vdata tdata r hr hout
    rcases mem_timeSeriesRules hr with h | h | h | h
    · obtain ⟨h1, -⟩ := mem_missingBlock h
      subst h1
      simp [isOutlierFinding, missingFinding] at hout
    · obtain ⟨h1, -⟩ := mem_dupBlock h
      subst h1
      simp [isOutlierFinding, dupFinding] at hout
    · have h1 := mem_sortBlock h
      subst h1
      by_cases hm : monoInc tdata <;>
        simp [isOutlierFinding, sortFinding, hm] at hout
    · obtain ⟨h1, -⟩ := mem_outlierBlock h
      subst h1
      exact ⟨rfl, rfl⟩

/-- Witness for the C8 theorem at the spec series itself. -/
theorem outlier_iqr_flags_thousand_and_warning_severity_witness :
    ({ is_valid := false, field_name := "value", severity := .warning,
       message := .detectedOutliers 1 (25/2), invalid_values := some [1000] } :
      ValidationResult).severity = Severity.warning ∧
    ({ is_valid := false, field_name := "value", severity := .warning,
       message := .detectedOutliers 1 (25/2), invalid_values := some [1000] } :
      ValidationResult).is_valid = decide
        ((((detectOutliersIqr (3/2) vsC8).length : ℚ) / ((8 : Nat) : ℚ)) *
          100 < 5) :=
  outlier_iqr_flags_thousand_and_warning_severity.2.2 8 "timestamp" "value"
    vsC8 tsC8 _ outlier_iqr_flags_thousand_and_warning_severity.2.1 rfl

/-- C10.  The early returns of `validate_time_series` — empty frame, or
missing value column — return their ERROR findings with the validator
history untouched (so a later summary is unchanged), and they never raise
even in strict mode. -/
theorem early_return_skips_history_and_strict_raise
    (strict : Bool) (hist : List ValidationResult) (df : DataFrame)
    (tcol vcol : String)
    (h : df.isEmpty = true ∨ df.col? vcol = none) :
    ∃ rs, validateTimeSeries strict hist df tcol vcol = .ok (rs, hist) ∧
      (∃ r ∈ rs, r.severity = Severity.error ∧ r.is_valid = false) ∧
      ∀ rs2 h2, validateTimeSeries strict hist df tcol vcol = .ok (rs2, h2) →
        getValidationSummary h2 = getValidationSummary hist := by
  by_cases hemp : df.isEmpty = true
  · have hmain : validateTimeSeries strict hist df tcol vcol =
        .ok ([{ is_valid := false, field_name := "dataframe",
                severity := .error, message := .dataFrameEmpty }], hist) := by
      simp [validateTimeSeries, hemp]
    refine ⟨_, hmain, ⟨_, List.mem_singleton_self _, rfl, rfl⟩, ?_⟩
    intro rs2 h2 hh
    rw [hmain] at hh
    simp only [Except.ok.injEq, Prod.mk.injEq] at hh
    rw [← hh.2]
  · rcases h with h | hv
    · exact absurd h hemp
    · have hne : df.isEmpty = false := by
        cases hb : df.isEmpty
        · rfl
        · exact absurd hb hemp
      have hmain : validateTimeSeries strict hist df tcol vcol =
          .ok ((if (df.col? tcol).isSome then []
                else [{ is_valid := false, field_name := tcol,
                        severity := .error,
                        message := .timestampColNotFound tcol }]) ++
               [{ is_valid := false, field_name := vcol, severity := .error,
                  message := .valueColNotFound vcol }], hist) := by
        simp only [validateTimeSeries, hne, Bool.false_eq_true, if_false, hv]
      refine ⟨_, hmain,
        ⟨_, List.mem_append_right _ (List.mem_singleton_self _), rfl, rfl⟩, ?_⟩
      intro rs2 h2 hh
      rw [hmain] at hh
      simp only [Except.ok.injEq, Prod.mk.injEq] at hh
      rw [← hh.2]

/-- Witness for the C10 theorem at the empty frame in strict mode. -/
theorem early_return_skips_history_and_strict_raise_witness :
    ∃ rs, validateTimeSeries true [] dfEmpty "timestamp" "value" =
        .ok (rs, []) ∧
      (∃ r ∈ rs, r.severity = Severity.error ∧ r.is_valid = false) ∧
      ∀ rs2 h2, validateTimeSeries true [] dfEmpty "timestamp" "value" =
          .ok (rs2, h2) →
        getValidationSummary h2 = getValidationSummary [] :=
  early_return_skips_history_and_strict_raise true [] dfEmpty "timestamp"
    "value" (Or.inl rfl)

/-- C9, counterexample.  A 429 surfacing above the transport layer, with a
Retry-After hint of 7 seconds and a successful response available on a
re-issue: `_make_request` raises `RateLimitError` at once — one request
issued, no sleep taken, no second issue — instead of sleeping 7 seconds
and re-issuing once as claimed. -/
theorem surfaced_429_fails_without_retry :
    makeRequest [.response ⟨429, some 7, none, "x"⟩,
                 .response ⟨200, none, none, "ok"⟩] =
      some ⟨.error (.rateLimit 7), 1, []⟩ ∧
    (⟨.error (.rateLimit 7), 1, []⟩ : ReqResult).requestsIssued ≠ 2 ∧
    (⟨.error (.rateLimit 7), 1, []⟩ : ReqResult).sleptSeconds ≠ [7] ∧
    (⟨.error (.rateLimit 7), 1, []⟩ : ReqResult).outcome ≠ .ok "ok" := by
  refine ⟨rfl, by decide, by decide, by decide⟩

/-- C9, amended.  On any 429 surfaced above the transport layer the client
reads the Retry-After hint (defaulting to 60), logs it, and raises
`RateLimitError` immediately: exactly one request is issued, no explicit
429 sleep is taken, and no re-issue happens regardless of what later
responses would have been. -/
theorem surfaced_429_raises_rate_limit_immediately
    (hint : Option Nat) (em : Option String) (body : String)
    (rest : List TransportEvent) :
    makeRequest (.response ⟨429, hint, em, body⟩ :: rest) =
      some ⟨.error (.rateLimit (hint.getD 60)), 1, []⟩ := rfl

end DDF
